import Mathlib

/-!
# Gobby tab label: status and presence reconciliation

A shallow embedding of `code/core/tablabel.cpp` (class `Gobby::TabLabel` and its nested
`UserWatcher`).  The collaborators the label only observes (session, text view, buffers,
folder, users) are an explicit environment record; the GObject signal machinery is an
explicit registry of connected handlers; every member function of the label is a pure
function on the combined state.
-/

namespace Gobby

/-! ## Data model -/

/-- Machine pointers (`InfTextUser*`, `DocWindow*`, `InfCommunicationGroup*`): an address. -/
abbrev Ptr := Nat

/-- The null pointer. -/
def NULL : Ptr := 0

/-- The double returned by `inf_text_user_get_hue`, kept abstract (only read and rendered). -/
abbrev Hue := Nat

/-- Type `InfSessionStatus`, the three cases of the switch in `update_icon`. -/
inductive InfSessionStatus where
  | INF_SESSION_SYNCHRONIZING
  | INF_SESSION_RUNNING
  | INF_SESSION_CLOSED
  deriving DecidableEq, Repr

/-- The stock identifiers `Gtk::Stock::*` that `update_icon` hands to `m_icon.set`. -/
inductive StockID where
  | DISCONNECT
  | EXECUTE
  | EDIT
  | FILE
  | STOP
  deriving DecidableEq, Repr

/-- The widget states `Gtk::STATE_NORMAL` and `Gtk::STATE_ACTIVE` used by `modify_fg`. -/
inductive StateType where
  | STATE_NORMAL
  | STATE_ACTIVE
  deriving DecidableEq, Repr

/-- A foreground colour given to `m_title.modify_fg`: either `Gdk::Color("#rrggbb")`
(the number is the hexadecimal value) or `default_style->get_fg(state)`. -/
inductive FgColor where
  | Color (rgb : Nat)
  | default_style_fg (state : StateType)
  deriving DecidableEq, Repr

/-- The two foreground colours of `m_title` that `update_color` writes. -/
structure TitleFg where
  normal : FgColor
  active : FgColor
  deriving DecidableEq, Repr

/-- One `<span color=...>` glyph of the dots markup: the colour is
`set_hsv(360.0 * hue, 0.6, 0.6)` for the hue recorded here. -/
structure Span where
  hue : Hue
  deriving DecidableEq, Repr

/-- The objects on which the label connects signal handlers. -/
inductive GObj where
  | text_view
  | session
  | text_buffer
  | buffer
  | user (u : Ptr)
  deriving DecidableEq, Repr

/-- The detailed signal names used in `tablabel.cpp`. -/
inductive SignalName where
  | notify_editable
  | notify_status
  | notify_subscription_group
  | modified_changed
  | insert_text
  | erase_text
  | notify_hue
  deriving DecidableEq, Repr

/-- The callbacks passed as `G_CALLBACK(...)`. -/
inductive Callback where
  | on_notify_editable_static
  | on_notify_status_static
  | on_notify_subscription_group_static
  | on_modified_changed_static
  | on_insert_text_static
  | on_erase_text_static
  | UserWatcher_on_notify_hue
  deriving DecidableEq, Repr

/-- One connected signal handler: the result of a `g_signal_connect` call that has not been
disconnected yet.  The user data of every handler in this development is the label. -/
structure Handler where
  inst : GObj
  detailed_signal : SignalName
  id : Nat
  callback : Callback
  deriving DecidableEq, Repr

/-- The signal machinery as explicit state: the connected GObject handlers, the next
handler id, the calls to `g_signal_handler_disconnect` that reached an object so far (in
call order), and whether the slot given to `m_folder.signal_document_changed()` is
connected. -/
structure Signals where
  handlers : List Handler
  next_id : Nat
  disconnect_calls : List (GObj × Nat)
  document_changed_slot : Bool

/-- The collaborators the label reads but does not own. -/
structure Env where
  /-- Result of `inf_session_get_subscription_group(session)`. -/
  subscription_group : Ptr
  /-- Result of `inf_session_get_status(session)`. -/
  status : InfSessionStatus
  /-- Result of `gtk_text_view_get_editable(view)`. -/
  editable : Bool
  /-- Result of `gtk_text_buffer_get_modified(...)`. -/
  modified : Bool
  /-- Result of `m_document.get_title()`. -/
  title : String
  /-- Result of `m_folder.get_current_document()`. -/
  current_document : Ptr
  /-- Result of `inf_text_user_get_hue(user)`. -/
  hue : Ptr → Hue

/-- Class `TabLabel::UserWatcher`: the watched user and the handle of its hue handler
(the `label` member is always the one label of this development). -/
structure UserWatcher where
  user : Ptr
  handle : Nat
  deriving DecidableEq, Repr

/-- The members of `TabLabel` that the member functions read or write.  `m_document` is the
address `&m_document`; `m_icon` is `none` while the image is still empty; `m_dots_visible`
is the visibility of the `m_dots` label and `m_dots_markup` its markup. -/
structure TabLabel where
  m_document : Ptr
  m_changed : Bool
  m_changed_by : List UserWatcher
  m_icon : Option StockID
  m_title_text : String
  m_title_fg : TitleFg
  m_dots_visible : Bool
  m_dots_markup : List Span
  m_notify_editable_handle : Nat
  m_notify_status_handle : Nat
  m_notify_subscription_group_handle : Nat
  m_modified_changed_handle : Nat
  m_insert_text_handle : Nat
  m_erase_text_handle : Nat

/-- The whole state: environment, signal registry and label. -/
structure State where
  env : Env
  sig : Signals
  label : TabLabel

/-! ## GObject signal primitives -/

/-- Whether an instance pointer is null.  The text view, the session and the two buffers
belong to the document the label refers to and are never null; a user pointer is null when
it is `NULL`. -/
def GObj.is_null : GObj → Bool
  | GObj.user u => u = NULL
  | _ => false

/-- Function `g_signal_connect` (and `g_signal_connect_after`): registers a handler on the
given instance and returns its fresh id.  GLib checks the instance first: on a null
instance nothing is connected and 0 is returned. -/
def g_signal_connect (sg : Signals) (inst : GObj) (detailed_signal : SignalName)
    (cb : Callback) : Signals × Nat :=
  if inst.is_null then (sg, 0)
  else
    ({ sg with
        handlers := sg.handlers ++ [⟨inst, detailed_signal, sg.next_id, cb⟩],
        next_id := sg.next_id + 1 },
     sg.next_id)

/-- Function `g_signal_handler_disconnect`: removes the handler with this id from this
instance; the call is recorded.  GLib checks the instance first: a call on a null instance
returns at once, disconnects nothing and is not recorded. -/
def g_signal_handler_disconnect (sg : Signals) (inst : GObj) (handle : Nat) : Signals :=
  if inst.is_null then sg
  else
    { sg with
        handlers := sg.handlers.filter (fun h => !(h.inst = inst && h.id = handle)),
        disconnect_calls := sg.disconnect_calls ++ [(inst, handle)] }

/-! ## UserWatcher -/

/-- Method `UserWatcher::connect`: connects `on_notify_hue` to `notify::hue` of the user and
stores the handle. -/
def UserWatcher.connect (sg : Signals) (user : Ptr) : Signals × UserWatcher :=
  let r := g_signal_connect sg (GObj.user user) SignalName.notify_hue
    Callback.UserWatcher_on_notify_hue
  (r.1, ⟨user, r.2⟩)

/-- Constructor `UserWatcher(TabLabel*, InfTextUser*)`. -/
def UserWatcher.mk_from_user (sg : Signals) (u : Ptr) : Signals × UserWatcher :=
  UserWatcher.connect sg u

/-- Copy constructor `UserWatcher(const UserWatcher&)`: copies the user and connects anew. -/
def UserWatcher.copy (sg : Signals) (other : UserWatcher) : Signals × UserWatcher :=
  UserWatcher.connect sg other.user

/-- Destructor of `UserWatcher`: disconnects its own handle. -/
def UserWatcher.destroy (sg : Signals) (w : UserWatcher) : Signals :=
  g_signal_handler_disconnect sg (GObj.user w.user) w.handle

/-- Method `UserWatcher::get_user`. -/
def UserWatcher.get_user (w : UserWatcher) : Ptr := w.user

/-- Method `UserWatcher::operator==(InfTextUser*)`, as a Boolean. -/
def UserWatcher.eq_user (w : UserWatcher) (other_user : Ptr) : Bool :=
  w.user = other_user

/-! ## The update functions -/

/-- Method `TabLabel::update_icon`. -/
def update_icon (env : Env) (l : TabLabel) : TabLabel :=
  if env.subscription_group = NULL then
    { l with m_icon := some StockID.DISCONNECT }
  else
    match env.status with
    | InfSessionStatus.INF_SESSION_SYNCHRONIZING => { l with m_icon := some StockID.EXECUTE }
    | InfSessionStatus.INF_SESSION_RUNNING =>
      if env.editable then { l with m_icon := some StockID.EDIT }
      else { l with m_icon := some StockID.FILE }
    | InfSessionStatus.INF_SESSION_CLOSED => { l with m_icon := some StockID.STOP }

/-- Method `TabLabel::update_color`. -/
def update_color (env : Env) (l : TabLabel) : TabLabel :=
  if l.m_changed then
    { l with m_title_fg := ⟨FgColor.Color 0xc00000, FgColor.Color 0xc00000⟩ }
  else if env.subscription_group = NULL ∨
      env.status ≠ InfSessionStatus.INF_SESSION_RUNNING then
    { l with m_title_fg := ⟨FgColor.Color 0x606060, FgColor.Color 0x606060⟩ }
  else
    { l with m_title_fg := ⟨FgColor.default_style_fg StateType.STATE_NORMAL,
                            FgColor.default_style_fg StateType.STATE_ACTIVE⟩ }

/-- Method `TabLabel::update_modified`. -/
def update_modified (env : Env) (l : TabLabel) : TabLabel :=
  let modified := env.modified
  let modified :=
    if env.status = InfSessionStatus.INF_SESSION_SYNCHRONIZING then false else modified
  if modified then { l with m_title_text := "*" ++ env.title }
  else { l with m_title_text := env.title }

/-- Method `TabLabel::update_dots`. -/
def update_dots (env : Env) (l : TabLabel) : TabLabel :=
  if l.m_changed_by.isEmpty then
    { l with m_dots_visible := false }
  else
    { l with
        m_dots_markup := l.m_changed_by.map (fun i => (⟨env.hue i.get_user⟩ : Span)),
        m_dots_visible := true }

/-! ## Event handlers -/

/-- Method `TabLabel::on_notify_editable`. -/
def on_notify_editable (s : State) : State :=
  { s with label := update_icon s.env s.label }

/-- Method `TabLabel::on_notify_status`. -/
def on_notify_status (s : State) : State :=
  { s with label := update_modified s.env (update_color s.env (update_icon s.env s.label)) }

/-- Method `TabLabel::on_notify_subscription_group`. -/
def on_notify_subscription_group (s : State) : State :=
  { s with label := update_color s.env (update_icon s.env s.label) }

/-- Method `TabLabel::on_modified_changed`. -/
def on_modified_changed (s : State) : State :=
  { s with label := update_modified s.env s.label }

/-- The statement `m_changed_by.push_back(UserWatcher(this, author))`: the temporary is
constructed (its constructor calls `connect`), copy-constructed into the new list node (the
copy calls `connect` again), and destroyed at the end of the statement (its destructor
disconnects the handle of the temporary). -/
def push_back_watcher (s : State) (author : Ptr) : State :=
  let tmp := UserWatcher.mk_from_user s.sig author
  let node := UserWatcher.copy tmp.1 tmp.2
  let sg := UserWatcher.destroy node.1 tmp.2
  { s with sig := sg, label := { s.label with m_changed_by := s.label.m_changed_by ++ [node.2] } }

/-- Method `TabLabel::on_changed`. -/
def on_changed (s : State) (author : Ptr) : State :=
  if s.env.current_document ≠ s.label.m_document then
    let s1 :=
      if s.label.m_changed_by.find? (fun w => w.eq_user author) = none then
        let s0 := push_back_watcher s author
        { s0 with label := update_dots s0.env s0.label }
      else s
    if !s1.label.m_changed then
      if s1.env.status = InfSessionStatus.INF_SESSION_RUNNING then
        { s1 with label := update_color s1.env { s1.label with m_changed := true } }
      else s1
    else s1
  else s

/-- The call `m_changed_by.clear()`: every element is destroyed, front to back. -/
def clear_changed_by (s : State) : State :=
  { s with
      sig := s.label.m_changed_by.foldl UserWatcher.destroy s.sig,
      label := { s.label with m_changed_by := [] } }

/-- Method `TabLabel::on_folder_document_changed`. -/
def on_folder_document_changed (s : State) (document : Ptr) : State :=
  if document = s.label.m_document then
    let s1 := clear_changed_by s
    let l := update_dots s1.env s1.label
    let l := { l with m_changed := false }
    { s1 with label := update_color s1.env l }
  else s

/-! ## Construction and destruction -/

/-- A registry with nothing connected, whose next handler id is `n0`. -/
def Signals.fresh (n0 : Nat) : Signals := ⟨[], n0, [], false⟩

/-- Constructor `TabLabel(Folder&, DocWindow&)`, run in environment `env` on a registry `sg`
for the document at address `document`.  The members start as the member initialisers leave
them: `m_changed` false, an empty list, an empty image, an empty title, and the `m_dots`
label not shown (the constructor shows `m_icon`, `m_title` and `m_button` only). -/
def TabLabel.construct (env : Env) (sg : Signals) (document : Ptr) : State :=
  let l : TabLabel :=
    { m_document := document, m_changed := false, m_changed_by := [], m_icon := none,
      m_title_text := "",
      m_title_fg := ⟨FgColor.default_style_fg StateType.STATE_NORMAL,
                     FgColor.default_style_fg StateType.STATE_ACTIVE⟩,
      m_dots_visible := false, m_dots_markup := [],
      m_notify_editable_handle := 0, m_notify_status_handle := 0,
      m_notify_subscription_group_handle := 0, m_modified_changed_handle := 0,
      m_insert_text_handle := 0, m_erase_text_handle := 0 }
  let l := update_icon env l
  let l := update_color env l
  let l := update_modified env l
  let r1 := g_signal_connect sg GObj.text_view SignalName.notify_editable
    Callback.on_notify_editable_static
  let r2 := g_signal_connect r1.1 GObj.session SignalName.notify_status
    Callback.on_notify_status_static
  let r3 := g_signal_connect r2.1 GObj.session SignalName.notify_subscription_group
    Callback.on_notify_subscription_group_static
  let r4 := g_signal_connect r3.1 GObj.text_buffer SignalName.modified_changed
    Callback.on_modified_changed_static
  let r5 := g_signal_connect r4.1 GObj.buffer SignalName.insert_text
    Callback.on_insert_text_static
  let r6 := g_signal_connect r5.1 GObj.buffer SignalName.erase_text
    Callback.on_erase_text_static
  let sg := { r6.1 with document_changed_slot := true }
  { env := env, sig := sg,
    label := { l with
      m_notify_editable_handle := r1.2, m_notify_status_handle := r2.2,
      m_notify_subscription_group_handle := r3.2, m_modified_changed_handle := r4.2,
      m_insert_text_handle := r5.2, m_erase_text_handle := r6.2 } }

/-- Destructor of `TabLabel`: the six explicit disconnects of its body, then the
destruction of the member `m_changed_by` (every watcher disconnects its handle), then the
release of the slot bound with `sigc::mem_fun(*this, ...)`, which the `sigc::trackable`
base of the widget performs.  The result is the registry that is left. -/
def TabLabel.destroy (s : State) : Signals :=
  let l := s.label
  let sg := g_signal_handler_disconnect s.sig GObj.text_view l.m_notify_editable_handle
  let sg := g_signal_handler_disconnect sg GObj.session l.m_notify_status_handle
  let sg := g_signal_handler_disconnect sg GObj.session l.m_notify_subscription_group_handle
  let sg := g_signal_handler_disconnect sg GObj.text_buffer l.m_modified_changed_handle
  let sg := g_signal_handler_disconnect sg GObj.buffer l.m_erase_text_handle
  let sg := g_signal_handler_disconnect sg GObj.buffer l.m_insert_text_handle
  let sg := l.m_changed_by.foldl UserWatcher.destroy sg
  { sg with document_changed_slot := false }

/-! ## Events -/

/-- Modelled from the spec: the static trampolines declared in `core/tablabel.hpp`
(`on_notify_editable_static` and its siblings), which are not part of the sources at hand.
Each one forwards to the member function of the same name; the two edit trampolines
forward the authoring user to `on_changed`.  The hue callback is
`UserWatcher::on_notify_hue` of `tablabel.cpp`, which calls `update_dots`. -/
def invoke (cb : Callback) (author : Ptr) (s : State) : State :=
  match cb with
  | Callback.on_notify_editable_static => on_notify_editable s
  | Callback.on_notify_status_static => on_notify_status s
  | Callback.on_notify_subscription_group_static => on_notify_subscription_group s
  | Callback.on_modified_changed_static => on_modified_changed s
  | Callback.on_insert_text_static => on_changed s author
  | Callback.on_erase_text_static => on_changed s author
  | Callback.UserWatcher_on_notify_hue => { s with label := update_dots s.env s.label }

/-- Emission of a signal on an instance: every handler connected to that signal of that
instance when the emission starts is invoked, in connection order. -/
def g_signal_emit (s : State) (inst : GObj) (detailed_signal : SignalName) (author : Ptr) :
    State :=
  (s.sig.handlers.filter
      (fun h => h.inst = inst && h.detailed_signal = detailed_signal)).foldl
    (fun st h => invoke h.callback author st) s

/-- The external events a label can receive.  Each carries the new value of the input that
changed (or the author of the edit, or the document that became current). -/
inductive Event where
  | status_changed (status : InfSessionStatus)
  | subscription_group_changed (group : Ptr)
  | editable_changed (editable : Bool)
  | modified_changed (modified : Bool)
  | text_inserted (author : Ptr)
  | text_erased (author : Ptr)
  | folder_document_changed (document : Ptr)
  | hue_changed (user : Ptr) (hue : Hue)
  deriving DecidableEq, Repr

/-- One event: the collaborator takes its new value, then the matching signal is emitted.
A hue change is an event of a user object: the null pointer is no object, has no hue
property and emits nothing, so a hue change of `NULL` is no event at all. -/
def step (s : State) : Event → State
  | Event.status_changed st =>
    g_signal_emit { s with env := { s.env with status := st } }
      GObj.session SignalName.notify_status NULL
  | Event.subscription_group_changed g =>
    g_signal_emit { s with env := { s.env with subscription_group := g } }
      GObj.session SignalName.notify_subscription_group NULL
  | Event.editable_changed b =>
    g_signal_emit { s with env := { s.env with editable := b } }
      GObj.text_view SignalName.notify_editable NULL
  | Event.modified_changed b =>
    g_signal_emit { s with env := { s.env with modified := b } }
      GObj.text_buffer SignalName.modified_changed NULL
  | Event.text_inserted author =>
    g_signal_emit s GObj.buffer SignalName.insert_text author
  | Event.text_erased author =>
    g_signal_emit s GObj.buffer SignalName.erase_text author
  | Event.folder_document_changed d =>
    let s1 := { s with env := { s.env with current_document := d } }
    if s1.sig.document_changed_slot then on_folder_document_changed s1 d else s1
  | Event.hue_changed u h =>
    if u = NULL then s
    else
      g_signal_emit
        { s with env := { s.env with hue := fun v => if v = u then h else s.env.hue v } }
        (GObj.user u) SignalName.notify_hue NULL

/-- A sequence of events, handled one after the other. -/
def run (s : State) (events : List Event) : State :=
  events.foldl step s

/-- The state right after construction in environment `env`, for the document at address
`document`, on a registry whose next handler id is `n0`. -/
def initial (env : Env) (document : Ptr) (n0 : Nat) : State :=
  TabLabel.construct env (Signals.fresh n0) document

/-! ## The derivation rules of the specification -/

/-- The five icon kinds named by the specification. -/
inductive IconKind where
  | Disconnected
  | Syncing
  | Editable
  | ReadOnly
  | Stopped
  deriving DecidableEq, Repr

/-- The stock image that shows each icon kind. -/
def IconKind.stock : IconKind → StockID
  | IconKind.Disconnected => StockID.DISCONNECT
  | IconKind.Syncing => StockID.EXECUTE
  | IconKind.Editable => StockID.EDIT
  | IconKind.ReadOnly => StockID.FILE
  | IconKind.Stopped => StockID.STOP

/-- The icon table of the specification, over (subscription group present, status,
editable). -/
def icon_rule (subscribed : Bool) (status : InfSessionStatus) (editable : Bool) : IconKind :=
  if !subscribed then IconKind.Disconnected
  else
    match status with
    | InfSessionStatus.INF_SESSION_SYNCHRONIZING => IconKind.Syncing
    | InfSessionStatus.INF_SESSION_RUNNING =>
      if editable then IconKind.Editable else IconKind.ReadOnly
    | InfSessionStatus.INF_SESSION_CLOSED => IconKind.Stopped

/-- The three colour classes named by the specification. -/
inductive ColorClass where
  | Alert
  | Dim
  | Default
  deriving DecidableEq, Repr

/-- The title foreground that shows each colour class: red, grey, or the default style. -/
def ColorClass.fg : ColorClass → TitleFg
  | ColorClass.Alert => ⟨FgColor.Color 0xc00000, FgColor.Color 0xc00000⟩
  | ColorClass.Dim => ⟨FgColor.Color 0x606060, FgColor.Color 0x606060⟩
  | ColorClass.Default => ⟨FgColor.default_style_fg StateType.STATE_NORMAL,
                           FgColor.default_style_fg StateType.STATE_ACTIVE⟩

/-- The colour rule of the specification, over (changed, subscription group present,
status): Alert first, then Dim, then Default. -/
def color_rule (changed subscribed : Bool) (status : InfSessionStatus) : ColorClass :=
  if changed then ColorClass.Alert
  else if !subscribed || status != InfSessionStatus.INF_SESSION_RUNNING then ColorClass.Dim
  else ColorClass.Default

/-- The title rule of the specification, over (document name, locally modified, status):
the name, marked with a star when locally modified, never marked while synchronizing. -/
def title_rule (name : String) (locallyModified : Bool) (status : InfSessionStatus) : String :=
  if locallyModified && status != InfSessionStatus.INF_SESSION_SYNCHRONIZING then "*" ++ name
  else name

/-- The dots rule of the specification: nothing is shown for an empty set, otherwise one
glyph per member, in order, in the current hue of the member. -/
def dots_rule (members : List Ptr) (hue : Ptr → Hue) : Option (List Span) :=
  if members = [] then none else some (members.map (fun u => (⟨hue u⟩ : Span)))

/-! ## Observations of a state -/

/-- The set RecentEditorSet of the specification: the users of `m_changed_by`, in list
order. -/
def RecentEditorSet (l : TabLabel) : List Ptr :=
  l.m_changed_by.map UserWatcher.get_user

/-- The dot strip as the host sees it: `none` when `m_dots` is hidden, the markup
otherwise. -/
def displayed_dots (l : TabLabel) : Option (List Span) :=
  if l.m_dots_visible then some l.m_dots_markup else none

/-- Whether the session has a subscription group. -/
def subscribed (env : Env) : Bool :=
  env.subscription_group != NULL

/-- All four displayed facets agree with their rules on the current inputs. -/
def facets_current (s : State) : Prop :=
  s.label.m_icon = some (icon_rule (subscribed s.env) s.env.status s.env.editable).stock ∧
  s.label.m_title_fg = (color_rule s.label.m_changed (subscribed s.env) s.env.status).fg ∧
  s.label.m_title_text = title_rule s.env.title s.env.modified s.env.status ∧
  displayed_dots s.label = dots_rule (RecentEditorSet s.label) s.env.hue

/-! ## Ownership of subscriptions -/

/-- The hue handler that a watcher owns: connected to `notify::hue` of its user, under the
handle stored in the watcher. -/
def UserWatcher.handler (w : UserWatcher) : Handler :=
  ⟨GObj.user w.user, SignalName.notify_hue, w.handle, Callback.UserWatcher_on_notify_hue⟩

/-- The watchers of a label whose user is not null: the ones whose `connect` reaches a
user object. -/
def connected_watchers (l : TabLabel) : List UserWatcher :=
  l.m_changed_by.filter (fun w => w.user ≠ NULL)

/-- The six primary handlers acquired by the constructor on the text view, the session and
the two buffers, under the handles stored in the label, in connection order. -/
def primary_handlers (l : TabLabel) : List Handler :=
  [⟨GObj.text_view, SignalName.notify_editable, l.m_notify_editable_handle,
      Callback.on_notify_editable_static⟩,
   ⟨GObj.session, SignalName.notify_status, l.m_notify_status_handle,
      Callback.on_notify_status_static⟩,
   ⟨GObj.session, SignalName.notify_subscription_group, l.m_notify_subscription_group_handle,
      Callback.on_notify_subscription_group_static⟩,
   ⟨GObj.text_buffer, SignalName.modified_changed, l.m_modified_changed_handle,
      Callback.on_modified_changed_static⟩,
   ⟨GObj.buffer, SignalName.insert_text, l.m_insert_text_handle,
      Callback.on_insert_text_static⟩,
   ⟨GObj.buffer, SignalName.erase_text, l.m_erase_text_handle,
      Callback.on_erase_text_static⟩]

/-- The pair (instance, handler id) that identifies a connected handler, as
`g_signal_handler_disconnect` takes it. -/
def Handler.key (h : Handler) : GObj × Nat := (h.inst, h.id)

/-- The connected hue subscriptions of a registry. -/
def hue_subscriptions (sg : Signals) : List Handler :=
  sg.handlers.filter (fun h => h.detailed_signal = SignalName.notify_hue)

/-- The connected handlers of a registry on one instance and signal. -/
def subscriptions_on (sg : Signals) (inst : GObj) (detailed_signal : SignalName) :
    List Handler :=
  sg.handlers.filter (fun h => h.inst = inst && h.detailed_signal = detailed_signal)

/-- The wiring invariant of the states reachable from construction: the registry holds
exactly the six primary handlers followed by one hue handler per watcher of a user that is
not null, handler ids are distinct and below the next id, no user is watched twice, and
the folder slot is connected. -/
structure Wired (sg : Signals) (l : TabLabel) : Prop where
  handlers_eq : sg.handlers = primary_handlers l ++ (connected_watchers l).map UserWatcher.handler
  id_lt : ∀ h ∈ sg.handlers, h.id < sg.next_id
  id_nodup : (sg.handlers.map Handler.id).Nodup
  users_nodup : (RecentEditorSet l).Nodup
  slot : sg.document_changed_slot = true

/-- The invariant of the reachable states: the wiring invariant, and the four displayed
facets are current. -/
structure Inv (s : State) : Prop where
  wired : Wired s.sig s.label
  facets : facets_current s

/-- The list `m_changed_by` (as users) that a history leaves, computed event by event:
`cur` is the current document of the folder and `acc` the members so far. -/
def track (doc : Ptr) : Ptr → List Ptr → List Event → List Ptr
  | _, acc, [] => acc
  | cur, acc, Event.text_inserted a :: es =>
    track doc cur (if cur ≠ doc ∧ a ∉ acc then acc ++ [a] else acc) es
  | cur, acc, Event.text_erased a :: es =>
    track doc cur (if cur ≠ doc ∧ a ∉ acc then acc ++ [a] else acc) es
  | _, acc, Event.folder_document_changed d :: es =>
    track doc d (if d = doc then [] else acc) es
  | cur, acc, _ :: es => track doc cur acc es

/-- The six disconnect calls of the destructor body, in the order it makes them. -/
def primary_disconnect_calls (l : TabLabel) : List (GObj × Nat) :=
  [(GObj.text_view, l.m_notify_editable_handle),
   (GObj.session, l.m_notify_status_handle),
   (GObj.session, l.m_notify_subscription_group_handle),
   (GObj.text_buffer, l.m_modified_changed_handle),
   (GObj.buffer, l.m_erase_text_handle),
   (GObj.buffer, l.m_insert_text_handle)]

/-- The disconnect calls that reach an object while the label is torn down: what the
destructor appends to the record of calls. -/
def teardown_calls (s : State) : List (GObj × Nat) :=
  (TabLabel.destroy s).disconnect_calls.drop s.sig.disconnect_calls.length

/-- Every recent editor that is not null owns exactly one connected hue subscription and
the label has no other hue subscription: the connected hue handlers are, in order, the
handlers stored in the watchers of the users that are not null; no user is watched twice;
a member that is not null has one handler on its hue signal; and apart from these hue
handlers only the six primary handlers are connected. -/
def owns_hue_subscriptions (s : State) : Prop :=
  hue_subscriptions s.sig = (connected_watchers s.label).map UserWatcher.handler ∧
  (RecentEditorSet s.label).Nodup ∧
  (∀ u, u ≠ NULL → u ∈ RecentEditorSet s.label →
    (subscriptions_on s.sig (GObj.user u) SignalName.notify_hue).length = 1) ∧
  (∀ u, u ∉ RecentEditorSet s.label →
    subscriptions_on s.sig (GObj.user u) SignalName.notify_hue = []) ∧
  s.sig.handlers = primary_handlers s.label ++ hue_subscriptions s.sig

/-- Teardown releases every subscription exactly once: the disconnect calls that reach an
object are the six primary ones and then one per watcher of a user that is not null, these
calls are pairwise distinct and are, up to order, the connected handlers, so their number
is six plus the number of recent editors that are not null; afterwards no handler is
connected. -/
def released_on_teardown (s : State) : Prop :=
  teardown_calls s
    = primary_disconnect_calls s.label
      ++ (connected_watchers s.label).map (fun w => (GObj.user w.user, w.handle)) ∧
  (teardown_calls s).Nodup ∧
  (teardown_calls s).Perm (s.sig.handlers.map Handler.key) ∧
  (teardown_calls s).length
    = 6 + ((RecentEditorSet s.label).filter (fun u => u ≠ NULL)).length ∧
  (TabLabel.destroy s).handlers = []

/-! ## The history of a tab, in the words of the specification -/

/-- Whether an event makes the document at address `doc` the active one. -/
def is_activation (doc : Ptr) : Event → Bool
  | Event.folder_document_changed d => d = doc
  | _ => false

/-- The events that follow the last activation of `doc` (all of them when there is none). -/
def since_last_activation (doc : Ptr) : List Event → List Event
  | [] => []
  | e :: es =>
    if es.any (is_activation doc) then since_last_activation doc es
    else if is_activation doc e then es
    else e :: es

/-- The authors of the remote edits that arrive while `doc` is not the current document,
in arrival order; `cur` is the current document before the first event. -/
def inactive_edit_authors (doc : Ptr) : Ptr → List Event → List Ptr
  | _, [] => []
  | cur, Event.text_inserted a :: es =>
    if cur ≠ doc then a :: inactive_edit_authors doc cur es
    else inactive_edit_authors doc cur es
  | cur, Event.text_erased a :: es =>
    if cur ≠ doc then a :: inactive_edit_authors doc cur es
    else inactive_edit_authors doc cur es
  | _, Event.folder_document_changed d :: es => inactive_edit_authors doc d es
  | cur, _ :: es => inactive_edit_authors doc cur es

/-- Each element once, at the place of its first occurrence. -/
def first_occurrences : List Ptr → List Ptr
  | [] => []
  | a :: as => a :: (first_occurrences as).filter (fun b => b ≠ a)

/-- The recent editors the specification expects after a history: the authors of the edits
that arrived while the tab was inactive since its last activation, each once, in the order
of their first edit.  Address `cur0` is the current document at construction. -/
def expected_editors (doc cur0 : Ptr) (events : List Event) : List Ptr :=
  first_occurrences
    (inactive_edit_authors doc (if events.any (is_activation doc) then doc else cur0)
      (since_last_activation doc events))

/-! ## Example states -/

/-- An example environment: subscribed (group at address 5), the given status, a view that
is not editable, an unmodified buffer named `notes`, another document (address 2) current
in the folder, every hue zero. -/
def example_env (status : InfSessionStatus) : Env :=
  { subscription_group := 5, status := status, editable := false, modified := false,
    title := "notes", current_document := 2, hue := fun _ => 0 }

/-- An inactive tab right after construction for the document at address 1, in the example
environment. -/
def example_inactive (status : InfSessionStatus) : State :=
  initial (example_env status) 1 1

/-- An active tab right after construction: the folder shows the document of the tab. -/
def example_active : State :=
  initial { example_env InfSessionStatus.INF_SESSION_RUNNING with current_document := 1 } 1 1

/-- The environment of the scenario of the specification, made from any environment: the
session is subscribed (a group at the non-null address `g + 1`) and Running, the view is
not editable, and another document (address `doc + 1`) is current, so that the tab of the
document at address `doc` is inactive. -/
def scenario_env (env : Env) (g doc : Ptr) : Env :=
  { env with
      subscription_group := g + 1, status := InfSessionStatus.INF_SESSION_RUNNING,
      editable := false, current_document := doc + 1 }

/-- The scenario after construction and a remote insertion by `a`. -/
def scenario_edited (env : Env) (g doc : Ptr) (n0 : Nat) (a : Ptr) : State :=
  step (initial (scenario_env env g doc) doc n0) (Event.text_inserted a)

/-- The scenario after the tab has then become the active document. -/
def scenario_activated (env : Env) (g doc : Ptr) (n0 : Nat) (a : Ptr) : State :=
  step (scenario_edited env g doc n0 a) (Event.folder_document_changed doc)

/-- A remote edit with a null author on an inactive tab of a running session. -/
def example_null_author : State :=
  run (example_inactive InfSessionStatus.INF_SESSION_RUNNING) [Event.text_inserted NULL]

/-- Three remote edits by three authors on an inactive tab of a running session. -/
def example_three_authors : State :=
  run (example_inactive InfSessionStatus.INF_SESSION_RUNNING)
    [Event.text_inserted 7, Event.text_erased 8, Event.text_inserted 9]

/-! # Theorems -/

/-! ## The three derivation rules -/

theorem star_append_ne (t : String) : "*" ++ t ≠ t := by
  intro h
  have := congrArg String.length h
  simp [String.length_append] at this
  exact absurd this (by decide)

/-- Function `update_icon` writes `m_icon` only, and writes the icon of the table. -/
theorem update_icon_eq (env : Env) (l : TabLabel) :
    update_icon env l
      = { l with m_icon := some (icon_rule (subscribed env) env.status env.editable).stock } := by
  unfold update_icon icon_rule subscribed
  by_cases hg : env.subscription_group = NULL
  · simp [hg, IconKind.stock]
  · cases hs : env.status <;> cases he : env.editable <;> simp [hg, IconKind.stock]

/-- Function `update_color` writes `m_title_fg` only, and writes the colour of the rule. -/
theorem update_color_eq (env : Env) (l : TabLabel) :
    update_color env l
      = { l with m_title_fg := (color_rule l.m_changed (subscribed env) env.status).fg } := by
  unfold update_color color_rule subscribed
  by_cases hc : l.m_changed = true
  · simp [hc, ColorClass.fg]
  · by_cases hg : env.subscription_group = NULL
    · simp [hc, hg, ColorClass.fg]
    · cases hs : env.status <;> simp [hc, hg, ColorClass.fg]

/-- Function `update_modified` writes `m_title_text` only, and writes the title of the
rule. -/
theorem update_modified_eq (env : Env) (l : TabLabel) :
    update_modified env l
      = { l with m_title_text := title_rule env.title env.modified env.status } := by
  unfold update_modified title_rule
  cases hs : env.status <;> cases hm : env.modified <;> simp

/-- Function `update_dots` writes the two `m_dots` fields only. -/
theorem update_dots_eq (env : Env) (l : TabLabel) :
    update_dots env l
      = { l with
          m_dots_visible := !l.m_changed_by.isEmpty,
          m_dots_markup :=
            if l.m_changed_by.isEmpty then l.m_dots_markup
            else l.m_changed_by.map (fun i => (⟨env.hue i.user⟩ : Span)) } := by
  unfold update_dots
  cases h : l.m_changed_by.isEmpty <;> simp [UserWatcher.get_user]

/-- Claim C1: for every subscription group, status and editable flag, `update_icon` sets
the icon of the icon table: Disconnected without a subscription group, otherwise Syncing,
Editable or ReadOnly, Stopped according to status and editability. -/
theorem update_icon_table (env : Env) (l : TabLabel) :
    (update_icon env l).m_icon
        = some (icon_rule (subscribed env) env.status env.editable).stock ∧
      Function.Injective IconKind.stock := by
  refine ⟨by rw [update_icon_eq], ?_⟩
  intro a b h
  cases a <;> cases b <;> simp [IconKind.stock] at h <;> rfl

/-- Claim C2: `update_color` sets Alert whenever `m_changed` is true, whatever the status
and the subscription group; with `m_changed` false it sets Dim when the subscription group
is absent or the status is not Running, and Default otherwise.  The handlers of a status
change and of a subscription-group change leave the title in that same colour. -/
theorem update_color_rule (env : Env) (l : TabLabel) (s : State) :
    (update_color env l).m_title_fg
        = (color_rule l.m_changed (subscribed env) env.status).fg ∧
      (update_color env { l with m_changed := true }).m_title_fg = ColorClass.Alert.fg ∧
      (on_notify_status s).label.m_title_fg
        = (color_rule s.label.m_changed (subscribed s.env) s.env.status).fg ∧
      (on_notify_subscription_group s).label.m_title_fg
        = (color_rule s.label.m_changed (subscribed s.env) s.env.status).fg ∧
      (on_notify_status s).label.m_changed = s.label.m_changed ∧
      Function.Injective ColorClass.fg := by
  refine ⟨by rw [update_color_eq], ?_, ?_, ?_, ?_, ?_⟩
  · rw [update_color_eq]
    rfl
  · simp [on_notify_status, update_icon_eq, update_color_eq, update_modified_eq]
  · simp [on_notify_subscription_group, update_icon_eq, update_color_eq]
  · simp [on_notify_status, update_icon_eq, update_color_eq, update_modified_eq]
  · intro a b h
    cases a <;> cases b <;> simp [ColorClass.fg] at h <;> rfl

/-- Claim C3: `update_modified` sets the title to the document name with the marker `*`
in front exactly when the buffer is locally modified and the status is not Synchronizing,
and to the bare name otherwise; when the status handler runs after the status became
Running with the buffer still modified, the title carries the marker. -/
theorem update_modified_title (env : Env) (l : TabLabel) (s : State) :
    (update_modified env l).m_title_text = title_rule env.title env.modified env.status ∧
      ((update_modified env l).m_title_text = "*" ++ env.title ↔
        (env.modified = true ∧ env.status ≠ InfSessionStatus.INF_SESSION_SYNCHRONIZING)) ∧
      ((update_modified env l).m_title_text = env.title ↔
        ¬ (env.modified = true ∧ env.status ≠ InfSessionStatus.INF_SESSION_SYNCHRONIZING)) ∧
      (update_modified
          { env with status := InfSessionStatus.INF_SESSION_SYNCHRONIZING, modified := true }
          l).m_title_text = env.title ∧
      (on_notify_status
          { s with env := { s.env with status := InfSessionStatus.INF_SESSION_RUNNING,
                                       modified := true } }).label.m_title_text
        = "*" ++ s.env.title := by
  have h1 := star_append_ne env.title
  refine ⟨by rw [update_modified_eq], ?_, ?_, ?_, ?_⟩
  · rw [update_modified_eq]
    cases hs : env.status <;> cases hm : env.modified <;> simp [title_rule, h1.symm]
  · rw [update_modified_eq]
    cases hs : env.status <;> cases hm : env.modified <;> simp [title_rule, h1]
  · rw [update_modified_eq]
    simp [title_rule]
  · simp [on_notify_status, update_icon_eq, update_color_eq, update_modified_eq, title_rule]

/-! ## Remote edits -/

theorem find_eq_user_none (ws : List UserWatcher) (a : Ptr) :
    ws.find? (fun w => w.eq_user a) = none ↔ a ∉ ws.map UserWatcher.get_user := by
  simp [List.find?_eq_none, UserWatcher.eq_user, UserWatcher.get_user]

/-- The label after `push_back`: the new watcher holds 0 as its handle when the author is
null and the id of the handler of the copy otherwise. -/
theorem push_back_watcher_label (s : State) (a : Ptr) :
    (push_back_watcher s a).label
      = { s.label with
          m_changed_by := s.label.m_changed_by
            ++ [⟨a, if a = NULL then 0 else s.sig.next_id + 1⟩] } := by
  by_cases ha : a = NULL
  · simp [push_back_watcher, UserWatcher.mk_from_user, UserWatcher.copy,
      UserWatcher.connect, UserWatcher.destroy, g_signal_connect,
      g_signal_handler_disconnect, GObj.is_null, ha]
  · simp [push_back_watcher, UserWatcher.mk_from_user, UserWatcher.copy,
      UserWatcher.connect, UserWatcher.destroy, g_signal_connect,
      g_signal_handler_disconnect, GObj.is_null, ha]

/-- The list `m_changed_by` after `on_changed`: a watcher for the author is appended when
the tab is inactive and the author is not yet a member. -/
theorem on_changed_changed_by (s : State) (a : Ptr) :
    (on_changed s a).label.m_changed_by
      = if s.env.current_document ≠ s.label.m_document ∧ a ∉ RecentEditorSet s.label then
          s.label.m_changed_by ++ [⟨a, if a = NULL then 0 else s.sig.next_id + 1⟩]
        else s.label.m_changed_by := by
  unfold on_changed RecentEditorSet
  by_cases hact : s.env.current_document = s.label.m_document
  · simp [hact]
  · by_cases hmem : a ∈ s.label.m_changed_by.map UserWatcher.get_user
    · have hf := (find_eq_user_none s.label.m_changed_by a).not.mpr (not_not.mpr hmem)
      simp only [ne_eq, hact, not_false_eq_true, hf, if_true, if_false, true_and, hmem]
      split
      · split <;> simp [update_color_eq]
      · rfl
    · have hf := (find_eq_user_none s.label.m_changed_by a).mpr hmem
      simp only [ne_eq, hact, not_false_eq_true, hf, if_true, true_and, hmem]
      split
      · split <;> simp [update_color_eq, update_dots_eq, push_back_watcher_label]
      · simp [update_color_eq, update_dots_eq, push_back_watcher_label]

/-! ## Signal emission on a wired registry -/

theorem filter_hue_handlers_of_ne (ws : List UserWatcher) (inst : GObj) (sig : SignalName)
    (hne : sig ≠ SignalName.notify_hue) :
    (ws.map UserWatcher.handler).filter
      (fun h => h.inst = inst && h.detailed_signal = sig) = [] := by
  rw [List.filter_eq_nil_iff]
  intro h hh
  rw [List.mem_map] at hh
  obtain ⟨w, _, rfl⟩ := hh
  simp [UserWatcher.handler, hne.symm]

theorem filter_hue_handlers_user (ws : List UserWatcher) (u : Ptr) :
    (ws.map UserWatcher.handler).filter
      (fun h => h.inst = GObj.user u && h.detailed_signal = SignalName.notify_hue)
      = (ws.filter (fun w => w.user = u)).map UserWatcher.handler := by
  induction ws with
  | nil => rfl
  | cons w ws ih =>
    by_cases hu : w.user = u
    · simp [List.filter_cons, UserWatcher.handler, hu] at ih ⊢
      exact ih
    · simp [List.filter_cons, UserWatcher.handler, hu] at ih ⊢
      exact ih

theorem update_dots_idem (env : Env) (l : TabLabel) :
    update_dots env (update_dots env l) = update_dots env l := by
  rw [update_dots_eq, update_dots_eq]
  cases h : l.m_changed_by.isEmpty <;> simp [h]

theorem foldl_hue_callbacks (a : Ptr) (ws : List UserWatcher) (s : State) :
    (ws.map UserWatcher.handler).foldl (fun st h => invoke h.callback a st) s
      = if ws = [] then s else { s with label := update_dots s.env s.label } := by
  induction ws generalizing s with
  | nil => rfl
  | cons w ws ih =>
    simp only [List.map_cons, List.foldl_cons, ih]
    by_cases hws : ws = []
    · simp [hws, invoke, UserWatcher.handler]
    · simp [hws, invoke, UserWatcher.handler, update_dots_idem]

theorem emit_notify_editable (s : State) (a : Ptr) (hw : Wired s.sig s.label) :
    g_signal_emit s GObj.text_view SignalName.notify_editable a = on_notify_editable s := by
  unfold g_signal_emit
  rw [hw.handlers_eq, List.filter_append, filter_hue_handlers_of_ne _ _ _ (by decide)]
  simp [primary_handlers, List.filter_cons, invoke]

theorem emit_notify_status (s : State) (a : Ptr) (hw : Wired s.sig s.label) :
    g_signal_emit s GObj.session SignalName.notify_status a = on_notify_status s := by
  unfold g_signal_emit
  rw [hw.handlers_eq, List.filter_append, filter_hue_handlers_of_ne _ _ _ (by decide)]
  simp [primary_handlers, List.filter_cons, invoke]

theorem emit_notify_subscription_group (s : State) (a : Ptr) (hw : Wired s.sig s.label) :
    g_signal_emit s GObj.session SignalName.notify_subscription_group a
      = on_notify_subscription_group s := by
  unfold g_signal_emit
  rw [hw.handlers_eq, List.filter_append, filter_hue_handlers_of_ne _ _ _ (by decide)]
  simp [primary_handlers, List.filter_cons, invoke]

theorem emit_modified_changed (s : State) (a : Ptr) (hw : Wired s.sig s.label) :
    g_signal_emit s GObj.text_buffer SignalName.modified_changed a = on_modified_changed s := by
  unfold g_signal_emit
  rw [hw.handlers_eq, List.filter_append, filter_hue_handlers_of_ne _ _ _ (by decide)]
  simp [primary_handlers, List.filter_cons, invoke]

theorem emit_insert_text (s : State) (a : Ptr) (hw : Wired s.sig s.label) :
    g_signal_emit s GObj.buffer SignalName.insert_text a = on_changed s a := by
  unfold g_signal_emit
  rw [hw.handlers_eq, List.filter_append, filter_hue_handlers_of_ne _ _ _ (by decide)]
  simp [primary_handlers, List.filter_cons, invoke]

theorem emit_erase_text (s : State) (a : Ptr) (hw : Wired s.sig s.label) :
    g_signal_emit s GObj.buffer SignalName.erase_text a = on_changed s a := by
  unfold g_signal_emit
  rw [hw.handlers_eq, List.filter_append, filter_hue_handlers_of_ne _ _ _ (by decide)]
  simp [primary_handlers, List.filter_cons, invoke]

theorem filter_connected_user (ws : List UserWatcher) (u : Ptr) (hu : u ≠ NULL) :
    (ws.filter (fun w => w.user ≠ NULL)).filter (fun w => w.user = u)
      = ws.filter (fun w => w.user = u) := by
  rw [List.filter_filter]
  apply List.filter_congr
  intro w _
  by_cases h : w.user = u
  · simp [h, hu]
  · simp [h]

theorem filter_user_eq_nil (ws : List UserWatcher) (u : Ptr) :
    ws.filter (fun w => w.user = u) = [] ↔ u ∉ ws.map UserWatcher.get_user := by
  rw [List.filter_eq_nil_iff]
  simp only [List.mem_map, UserWatcher.get_user, not_exists, not_and, decide_eq_true_eq]

theorem emit_notify_hue (s : State) (u a : Ptr) (hw : Wired s.sig s.label) (hu : u ≠ NULL) :
    g_signal_emit s (GObj.user u) SignalName.notify_hue a
      = if u ∈ RecentEditorSet s.label then { s with label := update_dots s.env s.label }
        else s := by
  unfold g_signal_emit
  rw [hw.handlers_eq, List.filter_append, filter_hue_handlers_user]
  have hp : (primary_handlers s.label).filter
      (fun h => h.inst = GObj.user u && h.detailed_signal = SignalName.notify_hue) = [] := by
    simp [primary_handlers, List.filter_cons]
  rw [hp, List.nil_append, foldl_hue_callbacks]
  unfold connected_watchers
  rw [filter_connected_user _ u hu]
  by_cases hm : u ∈ RecentEditorSet s.label
  · have : s.label.m_changed_by.filter (fun w => w.user = u) ≠ [] :=
      fun e => ((filter_user_eq_nil _ u).mp e) hm
    simp [hm, this]
  · have : s.label.m_changed_by.filter (fun w => w.user = u) = [] :=
      (filter_user_eq_nil _ u).mpr hm
    simp [hm, this]

/-! ## Preservation of the invariant -/

theorem Wired.of_label {sg : Signals} {l k : TabLabel} (hw : Wired sg l)
    (h1 : k.m_changed_by = l.m_changed_by) (h2 : primary_handlers k = primary_handlers l) :
    Wired sg k := by
  refine ⟨?_, hw.id_lt, hw.id_nodup, ?_, hw.slot⟩
  · unfold connected_watchers
    rw [h1, h2]
    exact hw.handlers_eq
  · unfold RecentEditorSet
    rw [h1]
    exact hw.users_nodup

theorem displayed_dots_update_dots (env : Env) (l : TabLabel) :
    displayed_dots (update_dots env l) = dots_rule (RecentEditorSet l) env.hue := by
  rw [update_dots_eq]
  unfold displayed_dots dots_rule RecentEditorSet
  cases h : l.m_changed_by with
  | nil => simp
  | cons w ws => simp [UserWatcher.get_user]

theorem facets_dots_update_dots (env : Env) (l : TabLabel) :
    displayed_dots (update_dots env l)
      = dots_rule (RecentEditorSet (update_dots env l)) env.hue := by
  rw [displayed_dots_update_dots]
  congr 1
  rw [update_dots_eq]
  rfl

/-- The registry after `push_back` of a null author: nothing is connected, nothing is
disconnected. -/
theorem push_back_watcher_sig_null (s : State) : (push_back_watcher s NULL).sig = s.sig := by
  simp [push_back_watcher, UserWatcher.mk_from_user, UserWatcher.copy,
    UserWatcher.connect, UserWatcher.destroy, g_signal_connect, g_signal_handler_disconnect,
    GObj.is_null]

/-- The registry after `push_back` of an author that is not null: on a wired registry the
temporary and the copy net to one new handler, the one of the copy. -/
theorem push_back_watcher_sig (s : State) (a : Ptr) (hw : Wired s.sig s.label)
    (ha : a ≠ NULL) :
    (push_back_watcher s a).sig
      = { s.sig with
          handlers := s.sig.handlers ++ [UserWatcher.handler ⟨a, s.sig.next_id + 1⟩],
          next_id := s.sig.next_id + 2,
          disconnect_calls := s.sig.disconnect_calls ++ [(GObj.user a, s.sig.next_id)] } := by
  simp only [push_back_watcher, UserWatcher.mk_from_user, UserWatcher.copy,
    UserWatcher.connect, UserWatcher.destroy, g_signal_connect, g_signal_handler_disconnect,
    UserWatcher.handler, GObj.is_null, ha, decide_False, Bool.false_eq_true, if_false]
  simp [List.filter_append, List.filter_cons]
  intro h hh
  exact Or.inr (Nat.ne_of_lt (hw.id_lt h hh))

theorem push_back_watcher_env (s : State) (a : Ptr) : (push_back_watcher s a).env = s.env := rfl

theorem push_back_watcher_wired (s : State) (a : Ptr) (hw : Wired s.sig s.label)
    (ha : a ∉ RecentEditorSet s.label) :
    Wired (push_back_watcher s a).sig (push_back_watcher s a).label := by
  have hnd : (RecentEditorSet
      { s.label with
        m_changed_by := s.label.m_changed_by
          ++ [⟨a, if a = NULL then 0 else s.sig.next_id + 1⟩] }).Nodup := by
    simp only [RecentEditorSet, List.map_append, List.map_cons, List.map_nil,
      UserWatcher.get_user]
    rw [List.nodup_append]
    refine ⟨hw.users_nodup, List.nodup_singleton _, ?_⟩
    intro x hx hx2
    simp only [List.mem_singleton] at hx2
    subst hx2
    exact ha hx
  by_cases hn : a = NULL
  · subst hn
    rw [push_back_watcher_sig_null, push_back_watcher_label]
    refine ⟨?_, hw.id_lt, hw.id_nodup, hnd, hw.slot⟩
    rw [hw.handlers_eq]
    simp [connected_watchers, List.filter_append, List.filter_cons, primary_handlers]
  · rw [push_back_watcher_sig s a hw hn, push_back_watcher_label]
    refine ⟨?_, ?_, ?_, hnd, hw.slot⟩
    · rw [hw.handlers_eq]
      simp [connected_watchers, List.filter_append, List.filter_cons, primary_handlers, hn]
    · intro h hh
      simp only [List.mem_append, List.mem_singleton] at hh
      rcases hh with hh | rfl
      · have := hw.id_lt h hh
        simp only
        omega
      · simp [UserWatcher.handler]
    · simp only [List.map_append, List.map_cons, List.map_nil]
      rw [List.nodup_append]
      refine ⟨hw.id_nodup, List.nodup_singleton _, ?_⟩
      intro x hx hx2
      simp only [List.mem_singleton, UserWatcher.handler] at hx2
      rw [List.mem_map] at hx
      obtain ⟨h, hh, rfl⟩ := hx
      have := hw.id_lt h hh
      omega

theorem mark_changed_inv (s : State) (hI : Inv s) :
    Inv (if (!s.label.m_changed) = true then
          if s.env.status = InfSessionStatus.INF_SESSION_RUNNING then
            { s with label := update_color s.env { s.label with m_changed := true } }
          else s
        else s) := by
  split
  · split
    · refine ⟨Wired.of_label hI.wired ?_ ?_, ?_⟩
      · rw [update_color_eq]
      · rw [update_color_eq]
        rfl
      · obtain ⟨h1, _, h3, h4⟩ := hI.facets
        refine ⟨?_, ?_, ?_, ?_⟩
        · rw [update_color_eq]
          exact h1
        · rw [update_color_eq]
        · rw [update_color_eq]
          exact h3
        · rw [update_color_eq]
          exact h4
    · exact hI
  · exact hI

theorem add_dot_inv (s : State) (a : Ptr) (hI : Inv s) (ha : a ∉ RecentEditorSet s.label) :
    Inv { push_back_watcher s a with
          label := update_dots (push_back_watcher s a).env (push_back_watcher s a).label } := by
  have hw := push_back_watcher_wired s a hI.wired ha
  refine ⟨Wired.of_label hw ?_ ?_, ?_⟩
  · rw [update_dots_eq]
  · rw [update_dots_eq]
    rfl
  · obtain ⟨h1, h2, h3, _⟩ := hI.facets
    refine ⟨?_, ?_, ?_, ?_⟩
    · rw [update_dots_eq, push_back_watcher_label]
      exact h1
    · rw [update_dots_eq, push_back_watcher_label]
      exact h2
    · rw [update_dots_eq, push_back_watcher_label]
      exact h3
    · exact facets_dots_update_dots _ _

theorem on_changed_inv (s : State) (a : Ptr) (hI : Inv s) : Inv (on_changed s a) := by
  unfold on_changed
  split
  · by_cases hmem : a ∈ s.label.m_changed_by.map UserWatcher.get_user
    · have hf := (find_eq_user_none s.label.m_changed_by a).not.mpr (not_not.mpr hmem)
      simp only [hf, if_false]
      exact mark_changed_inv s hI
    · have hf := (find_eq_user_none s.label.m_changed_by a).mpr hmem
      simp only [hf, if_true]
      exact mark_changed_inv _ (add_dot_inv s a hI hmem)
  · exact hI

/-- Destroying a list of watchers removes the handlers owned by the watchers of users
that are not null and records one disconnect call for each of them, in list order. -/
theorem foldl_destroy (ws : List UserWatcher) (sg : Signals) :
    ws.foldl UserWatcher.destroy sg
      = { sg with
          handlers := sg.handlers.filter
            (fun h => !ws.any
              (fun w => w.user ≠ NULL && (h.inst = GObj.user w.user && h.id = w.handle))),
          disconnect_calls :=
            sg.disconnect_calls
              ++ (ws.filter (fun w => w.user ≠ NULL)).map
                  (fun w => (GObj.user w.user, w.handle)) } := by
  induction ws generalizing sg with
  | nil => simp
  | cons w ws ih =>
    rw [List.foldl_cons, ih]
    by_cases hn : w.user = NULL
    · simp [UserWatcher.destroy, g_signal_handler_disconnect, GObj.is_null, hn,
        List.filter_cons]
    · simp only [UserWatcher.destroy, g_signal_handler_disconnect, GObj.is_null, hn,
        decide_False, Bool.false_eq_true, if_false, List.filter_filter, List.any_cons,
        List.filter_cons, ne_eq, not_false_eq_true, decide_True, if_true, List.map_cons,
        List.append_assoc, List.singleton_append, Bool.true_and]
      congr 1
      apply List.filter_congr
      intro h _
      cases (decide (h.inst = GObj.user w.user) && decide (h.id = w.handle)) <;> simp

theorem filter_own_hue_handlers (ws : List UserWatcher) :
    ((ws.filter (fun w => w.user ≠ NULL)).map UserWatcher.handler).filter
      (fun h => !ws.any
        (fun w => w.user ≠ NULL && (h.inst = GObj.user w.user && h.id = w.handle))) = [] := by
  rw [List.filter_eq_nil_iff]
  intro h hh
  rw [List.mem_map] at hh
  obtain ⟨w, hw, rfl⟩ := hh
  rw [List.mem_filter] at hw
  simp only [Bool.not_eq_true, Bool.not_eq_false_eq_eq_true, List.any_eq_true]
  exact ⟨w, hw.1, by simpa [UserWatcher.handler] using hw.2⟩

theorem filter_primary_handlers (l : TabLabel) (ws : List UserWatcher) :
    (primary_handlers l).filter
      (fun h => !ws.any
        (fun w => w.user ≠ NULL && (h.inst = GObj.user w.user && h.id = w.handle)))
      = primary_handlers l := by
  rw [List.filter_eq_self]
  intro h hh
  simp only [primary_handlers, List.mem_cons, List.mem_singleton, List.not_mem_nil,
    or_false] at hh
  rcases hh with rfl | rfl | rfl | rfl | rfl | rfl <;> simp

theorem clear_changed_by_sig (s : State) (hw : Wired s.sig s.label) :
    (clear_changed_by s).sig
      = { s.sig with
          handlers := primary_handlers s.label,
          disconnect_calls := s.sig.disconnect_calls
            ++ (connected_watchers s.label).map (fun w => (GObj.user w.user, w.handle)) } := by
  simp only [clear_changed_by, foldl_destroy]
  rw [hw.handlers_eq, List.filter_append]
  unfold connected_watchers
  rw [filter_own_hue_handlers, filter_primary_handlers, List.append_nil]

theorem clear_changed_by_wired (s : State) (hw : Wired s.sig s.label) :
    Wired (clear_changed_by s).sig (clear_changed_by s).label := by
  rw [clear_changed_by_sig s hw]
  have hsub : ∀ h ∈ primary_handlers s.label, h ∈ s.sig.handlers := by
    intro h hh
    rw [hw.handlers_eq]
    exact List.mem_append_left _ hh
  refine ⟨?_, ?_, ?_, ?_, hw.slot⟩
  · simp [clear_changed_by, primary_handlers, connected_watchers]
  · intro h hh
    exact hw.id_lt h (hsub h hh)
  · have := hw.id_nodup
    rw [hw.handlers_eq, List.map_append] at this
    exact (List.nodup_append.mp this).1
  · simp [clear_changed_by, RecentEditorSet]

theorem on_folder_document_changed_inv (s : State) (d : Ptr) (hI : Inv s) :
    Inv (on_folder_document_changed s d) := by
  unfold on_folder_document_changed
  split
  · have hw := clear_changed_by_wired s hI.wired
    obtain ⟨h1, _, h3, _⟩ := hI.facets
    refine ⟨Wired.of_label hw ?_ ?_, ?_, ?_, ?_, ?_⟩
    · simp [update_color_eq, update_dots_eq]
    · simp [update_color_eq, update_dots_eq, primary_handlers]
    · simp only [update_color_eq, update_dots_eq]
      exact h1
    · simp only [update_color_eq, update_dots_eq]
    · simp only [update_color_eq, update_dots_eq]
      exact h3
    · simp [update_color_eq, update_dots_eq, clear_changed_by, displayed_dots, dots_rule,
        RecentEditorSet]
  · exact hI

theorem dots_rule_congr (members : List Ptr) (f g : Ptr → Hue)
    (h : ∀ u ∈ members, f u = g u) : dots_rule members f = dots_rule members g := by
  unfold dots_rule
  split
  · rfl
  · congr 1
    apply List.map_congr_left
    intro u hu
    rw [h u hu]

/-- Every event preserves the invariant. -/
theorem step_inv (s : State) (e : Event) (hI : Inv s) : Inv (step s e) := by
  obtain ⟨hw, h1, h2, h3, h4⟩ := hI
  cases e with
  | status_changed st =>
    simp only [step]
    rw [emit_notify_status { s with env := { s.env with status := st } } _ hw]
    refine ⟨Wired.of_label hw ?_ ?_, ?_, ?_, ?_, ?_⟩ <;>
      simp only [on_notify_status, update_icon_eq, update_color_eq, update_modified_eq]
    · rfl
    · exact h4
  | subscription_group_changed g =>
    simp only [step]
    rw [emit_notify_subscription_group
      { s with env := { s.env with subscription_group := g } } _ hw]
    refine ⟨Wired.of_label hw ?_ ?_, ?_, ?_, ?_, ?_⟩ <;>
      simp only [on_notify_subscription_group, update_icon_eq, update_color_eq]
    · rfl
    · exact h3
    · exact h4
  | editable_changed b =>
    simp only [step]
    rw [emit_notify_editable { s with env := { s.env with editable := b } } _ hw]
    refine ⟨Wired.of_label hw ?_ ?_, ?_, ?_, ?_, ?_⟩ <;>
      simp only [on_notify_editable, update_icon_eq]
    · rfl
    · exact h2
    · exact h3
    · exact h4
  | modified_changed b =>
    simp only [step]
    rw [emit_modified_changed { s with env := { s.env with modified := b } } _ hw]
    refine ⟨Wired.of_label hw ?_ ?_, ?_, ?_, ?_, ?_⟩ <;>
      simp only [on_modified_changed, update_modified_eq]
    · rfl
    · exact h1
    · exact h2
    · exact h4
  | text_inserted a =>
    simp only [step]
    rw [emit_insert_text _ _ hw]
    exact on_changed_inv s a ⟨hw, h1, h2, h3, h4⟩
  | text_erased a =>
    simp only [step]
    rw [emit_erase_text _ _ hw]
    exact on_changed_inv s a ⟨hw, h1, h2, h3, h4⟩
  | folder_document_changed d =>
    simp only [step, hw.slot, if_true]
    exact on_folder_document_changed_inv _ d ⟨hw, h1, h2, h3, h4⟩
  | hue_changed u h =>
    simp only [step]
    by_cases hn : u = NULL
    · simp only [hn, if_true]
      exact ⟨hw, h1, h2, h3, h4⟩
    · simp only [hn, if_false]
      rw [emit_notify_hue
        { s with env := { s.env with hue := fun v => if v = u then h else s.env.hue v } }
        _ _ hw hn]
      split
      · refine ⟨Wired.of_label hw ?_ ?_, ?_, ?_, ?_, ?_⟩
        · rw [update_dots_eq]
        · rw [update_dots_eq]
          rfl
        · rw [update_dots_eq]
          exact h1
        · rw [update_dots_eq]
          exact h2
        · rw [update_dots_eq]
          exact h3
        · exact facets_dots_update_dots _ _
      · rename_i hu
        refine ⟨hw, h1, h2, h3, ?_⟩
        rw [h4]
        apply dots_rule_congr
        intro v hv
        have : v ≠ u := fun hvu => hu (hvu ▸ hv)
        simp [this]

/-- The state right after construction satisfies the invariant. -/
theorem initial_inv (env : Env) (doc : Ptr) (n0 : Nat) : Inv (initial env doc n0) := by
  refine ⟨⟨?_, ?_, ?_, ?_, ?_⟩, ?_, ?_, ?_, ?_⟩
  · simp [initial, TabLabel.construct, Signals.fresh, g_signal_connect, GObj.is_null,
      primary_handlers, connected_watchers, update_icon_eq, update_color_eq,
      update_modified_eq]
  · intro h hh
    simp [initial, TabLabel.construct, Signals.fresh, g_signal_connect, GObj.is_null] at hh ⊢
    rcases hh with rfl | rfl | rfl | rfl | rfl | rfl
    all_goals simp
    omega
  · simp [initial, TabLabel.construct, Signals.fresh, g_signal_connect, GObj.is_null]
    omega
  · simp [initial, TabLabel.construct, RecentEditorSet, connected_watchers,
      update_icon_eq, update_color_eq, update_modified_eq]
  · simp [initial, TabLabel.construct, Signals.fresh, g_signal_connect, GObj.is_null]
  · simp [initial, TabLabel.construct, update_icon_eq, update_color_eq, update_modified_eq]
  · simp [initial, TabLabel.construct, update_icon_eq, update_color_eq, update_modified_eq]
  · simp [initial, TabLabel.construct, update_icon_eq, update_color_eq, update_modified_eq]
  · simp [initial, TabLabel.construct, update_icon_eq, update_color_eq, update_modified_eq,
      displayed_dots, dots_rule, RecentEditorSet]

/-- Every history preserves the invariant. -/
theorem run_inv (s : State) (events : List Event) (hI : Inv s) : Inv (run s events) := by
  induction events generalizing s with
  | nil => exact hI
  | cons e es ih => exact ih (step s e) (step_inv s e hI)

/-! ## The recent editors of a history -/

theorem on_changed_env (s : State) (a : Ptr) : (on_changed s a).env = s.env := by
  unfold on_changed
  split
  · split <;> dsimp only <;> split <;> (try split) <;> rfl
  · rfl

theorem on_changed_m_document (s : State) (a : Ptr) :
    (on_changed s a).label.m_document = s.label.m_document := by
  unfold on_changed
  split
  · split <;> dsimp only <;> split <;> (try split) <;>
      simp [update_color_eq, update_dots_eq, push_back_watcher_label]
  · rfl

theorem on_changed_editors (s : State) (a : Ptr) :
    RecentEditorSet (on_changed s a).label
      = if s.env.current_document ≠ s.label.m_document ∧ a ∉ RecentEditorSet s.label then
          RecentEditorSet s.label ++ [a]
        else RecentEditorSet s.label := by
  unfold RecentEditorSet
  rw [on_changed_changed_by]
  unfold RecentEditorSet
  split <;> simp [UserWatcher.get_user]

theorem on_folder_document_changed_editors (s : State) (d : Ptr) :
    RecentEditorSet (on_folder_document_changed s d).label
      = if d = s.label.m_document then [] else RecentEditorSet s.label := by
  unfold on_folder_document_changed
  split
  · simp [RecentEditorSet, update_color_eq, update_dots_eq, clear_changed_by]
  · rfl

theorem on_folder_document_changed_env (s : State) (d : Ptr) :
    (on_folder_document_changed s d).env = s.env := by
  unfold on_folder_document_changed
  split <;> rfl

theorem on_folder_document_changed_m_document (s : State) (d : Ptr) :
    (on_folder_document_changed s d).label.m_document = s.label.m_document := by
  unfold on_folder_document_changed
  split
  · simp [update_color_eq, update_dots_eq, clear_changed_by]
  · rfl

/-- The recent editors after a history from a state with the invariant are those that
`track` computes. -/
theorem run_track (s : State) (events : List Event) (hI : Inv s) :
    RecentEditorSet (run s events).label
      = track s.label.m_document s.env.current_document (RecentEditorSet s.label) events := by
  induction events generalizing s with
  | nil => rfl
  | cons e es ih =>
    have hI1 := step_inv s e hI
    have hw := hI.wired
    show RecentEditorSet (run (step s e) es).label = _
    rw [ih (step s e) hI1]
    cases e with
    | status_changed st =>
      simp only [step, track]
      rw [emit_notify_status { s with env := { s.env with status := st } } _ hw]
      simp [on_notify_status, update_icon_eq, update_color_eq, update_modified_eq,
        RecentEditorSet]
    | subscription_group_changed g =>
      simp only [step, track]
      rw [emit_notify_subscription_group
        { s with env := { s.env with subscription_group := g } } _ hw]
      simp [on_notify_subscription_group, update_icon_eq, update_color_eq, RecentEditorSet]
    | editable_changed b =>
      simp only [step, track]
      rw [emit_notify_editable { s with env := { s.env with editable := b } } _ hw]
      simp [on_notify_editable, update_icon_eq, RecentEditorSet]
    | modified_changed b =>
      simp only [step, track]
      rw [emit_modified_changed { s with env := { s.env with modified := b } } _ hw]
      simp [on_modified_changed, update_modified_eq, RecentEditorSet]
    | text_inserted a =>
      simp only [step, track]
      rw [emit_insert_text _ _ hw, on_changed_editors, on_changed_env, on_changed_m_document]
    | text_erased a =>
      simp only [step, track]
      rw [emit_erase_text _ _ hw, on_changed_editors, on_changed_env, on_changed_m_document]
    | folder_document_changed d =>
      simp only [step, track, hw.slot, if_true]
      rw [on_folder_document_changed_editors, on_folder_document_changed_env,
        on_folder_document_changed_m_document]
    | hue_changed u h =>
      simp only [step, track]
      by_cases hn : u = NULL
      · simp only [hn, if_true]
      · simp only [hn, if_false]
        rw [emit_notify_hue
          { s with env := { s.env with hue := fun v => if v = u then h else s.env.hue v } }
          _ _ hw hn]
        split <;> simp [update_dots_eq, RecentEditorSet]

theorem since_last_activation_no_activation (doc : Ptr) (events : List Event) :
    (since_last_activation doc events).any (is_activation doc) = false := by
  induction events with
  | nil => rfl
  | cons e es ih =>
    unfold since_last_activation
    by_cases h1 : es.any (is_activation doc) = true
    · simp only [h1, if_true]
      exact ih
    · by_cases h2 : is_activation doc e = true
      · simp only [h1, h2, if_true, if_false]
        simpa using h1
      · simp only [Bool.not_eq_true] at h1 h2
        simp only [h1, h2, Bool.false_eq_true, if_false]
        rw [List.any_cons, h1, h2]
        rfl

theorem since_last_activation_of_none (doc : Ptr) (events : List Event)
    (h : events.any (is_activation doc) = false) : since_last_activation doc events = events := by
  cases events with
  | nil => rfl
  | cons e es =>
    rw [List.any_cons, Bool.or_eq_false_iff] at h
    unfold since_last_activation
    simp [h.1, h.2]

/-- After an activation the tracked members depend only on the events that follow the last
activation. -/
theorem track_since_last_activation (doc : Ptr) (events : List Event) (cur : Ptr)
    (acc : List Ptr) (h : events.any (is_activation doc) = true) :
    track doc cur acc events = track doc doc [] (since_last_activation doc events) := by
  induction events generalizing cur acc with
  | nil => simp at h
  | cons e es ih =>
    by_cases h1 : es.any (is_activation doc) = true
    · have hs : since_last_activation doc (e :: es) = since_last_activation doc es := by
        conv_lhs => unfold since_last_activation
        simp only [h1, if_true]
      rw [hs]
      cases e <;> simp only [track] <;> exact ih _ _ h1
    · have h2 : is_activation doc e = true := by
        rw [List.any_cons, Bool.or_eq_true] at h
        rcases h with h | h
        · exact h
        · exact absurd h h1
      have hs : since_last_activation doc (e :: es) = es := by
        conv_lhs => unfold since_last_activation
        simp only [Bool.not_eq_true] at h1
        simp only [h1, h2, Bool.false_eq_true, if_true, if_false]
      rw [hs]
      cases e <;> simp [is_activation] at h2
      subst h2
      simp [track]

theorem track_edit_step (doc cur a : Ptr) (acc rest : List Ptr) :
    (if cur ≠ doc ∧ a ∉ acc then acc ++ [a] else acc)
        ++ (first_occurrences rest).filter
            (fun b => b ∉ (if cur ≠ doc ∧ a ∉ acc then acc ++ [a] else acc))
      = acc ++ (first_occurrences (if cur ≠ doc then a :: rest else rest)).filter
          (fun b => b ∉ acc) := by
  by_cases hc : cur = doc
  · simp [hc]
  · by_cases ha : a ∈ acc
    · simp only [ne_eq, hc, not_false_eq_true, ha, not_true_eq_false, and_false, if_false,
        if_true, first_occurrences]
      congr 1
      rw [List.filter_cons]
      simp only [ha, not_true_eq_false, decide_False, Bool.false_eq_true, if_false,
        List.filter_filter]
      apply List.filter_congr
      intro b _
      by_cases hb : b ∈ acc
      · simp [hb]
      · have : b ≠ a := fun e => hb (e ▸ ha)
        simp [hb, this]
    · simp only [ne_eq, hc, not_false_eq_true, ha, and_self, if_true, first_occurrences]
      rw [List.filter_cons]
      simp only [ha, not_false_eq_true, decide_True, if_true, List.filter_filter,
        List.append_assoc, List.singleton_append]
      congr 2
      apply List.filter_congr
      intro b _
      by_cases hb : b ∈ acc
      · have : b ≠ a := fun e => ha (e ▸ hb)
        simp [hb, this]
      · by_cases hba : b = a
        · simp [hba, ha]
        · simp [hb, hba]

/-- Without an activation the tracked members are the members so far followed by the new
authors, each once, in the order of their first edit. -/
theorem track_of_no_activation (doc : Ptr) (events : List Event) (cur : Ptr)
    (acc : List Ptr) (h : events.any (is_activation doc) = false) :
    track doc cur acc events
      = acc ++ (first_occurrences (inactive_edit_authors doc cur events)).filter
          (fun b => b ∉ acc) := by
  induction events generalizing cur acc with
  | nil => simp [track, inactive_edit_authors, first_occurrences]
  | cons e es ih =>
    rw [List.any_cons, Bool.or_eq_false_iff] at h
    have ih2 := fun c ac => ih c ac h.2
    cases e with
    | text_inserted a =>
      simp only [track]
      rw [ih2, track_edit_step]
      simp only [inactive_edit_authors]
    | text_erased a =>
      simp only [track]
      rw [ih2, track_edit_step]
      simp only [inactive_edit_authors]
    | folder_document_changed d =>
      have hd : ¬ d = doc := by simpa [is_activation] using h.1
      simp only [track, inactive_edit_authors, hd, if_false]
      exact ih2 _ _
    | status_changed st => simp only [track, inactive_edit_authors]; exact ih2 _ _
    | subscription_group_changed g => simp only [track, inactive_edit_authors]; exact ih2 _ _
    | editable_changed b => simp only [track, inactive_edit_authors]; exact ih2 _ _
    | modified_changed b => simp only [track, inactive_edit_authors]; exact ih2 _ _
    | hue_changed u hv => simp only [track, inactive_edit_authors]; exact ih2 _ _

/-- The members that `track` computes from an empty list are the expected editors. -/
theorem track_eq_expected (doc cur0 : Ptr) (events : List Event) :
    track doc cur0 [] events = expected_editors doc cur0 events := by
  unfold expected_editors
  by_cases h : events.any (is_activation doc) = true
  · rw [track_since_last_activation doc events cur0 [] h,
      track_of_no_activation doc _ doc [] (since_last_activation_no_activation doc events)]
    simp [h]
  · simp only [Bool.not_eq_true] at h
    rw [since_last_activation_of_none doc events h,
      track_of_no_activation doc events cur0 [] h]
    simp [h]

theorem mem_first_occurrences (l : List Ptr) (b : Ptr) :
    b ∈ first_occurrences l ↔ b ∈ l := by
  induction l with
  | nil => simp [first_occurrences]
  | cons a as ih =>
    simp only [first_occurrences, List.mem_cons, List.mem_filter, ih]
    by_cases h : b = a
    · simp [h]
    · simp [h]

theorem first_occurrences_nodup (l : List Ptr) : (first_occurrences l).Nodup := by
  induction l with
  | nil => simp [first_occurrences]
  | cons a as ih =>
    simp only [first_occurrences, List.nodup_cons, List.mem_filter]
    exact ⟨by simp, ih.filter _⟩

/-- Claim C6: in every state reachable from construction each user appears at most once in
`m_changed_by`, the members are the authors of the edits received while inactive since the
last activation, in the order of their first edit, and handling the same author twice adds
one entry only. -/
theorem recent_editors_unique_ordered (env : Env) (doc : Ptr) (n0 : Nat)
    (events : List Event) (s : State) (a : Ptr) :
    (RecentEditorSet (run (initial env doc n0) events).label).Nodup ∧
      (∀ u, (RecentEditorSet (run (initial env doc n0) events).label).count u ≤ 1) ∧
      RecentEditorSet (run (initial env doc n0) events).label
        = expected_editors doc env.current_document events ∧
      RecentEditorSet (on_changed (on_changed s a) a).label
        = RecentEditorSet (on_changed s a).label := by
  have hI := run_inv _ events (initial_inv env doc n0)
  have hnd := hI.wired.users_nodup
  refine ⟨hnd, ?_, ?_, ?_⟩
  · intro u
    exact List.nodup_iff_count_le_one.mp hnd u
  · rw [run_track _ _ (initial_inv env doc n0), ← track_eq_expected]
    simp [initial, TabLabel.construct, RecentEditorSet, update_icon_eq, update_color_eq,
      update_modified_eq]
  · rw [on_changed_editors (on_changed s a) a, on_changed_editors s a, on_changed_env,
      on_changed_m_document]
    by_cases h : s.env.current_document ≠ s.label.m_document ∧ a ∉ RecentEditorSet s.label
    · simp [h]
    · simp only [h, if_false]

/-- Claim C7: after construction and after every event of every history, the icon, the
colour, the title and the dot strip equal their derivation rules on the current inputs: the
dot strip is hidden exactly when there is no recent editor and otherwise shows one glyph
per member, in insertion order, in the current hue of the member. -/
theorem facets_never_stale (env : Env) (doc : Ptr) (n0 : Nat) (events : List Event) :
    (run (initial env doc n0) events).label.m_icon
        = some (icon_rule (subscribed (run (initial env doc n0) events).env)
            (run (initial env doc n0) events).env.status
            (run (initial env doc n0) events).env.editable).stock ∧
      (run (initial env doc n0) events).label.m_title_fg
        = (color_rule (run (initial env doc n0) events).label.m_changed
            (subscribed (run (initial env doc n0) events).env)
            (run (initial env doc n0) events).env.status).fg ∧
      (run (initial env doc n0) events).label.m_title_text
        = title_rule (run (initial env doc n0) events).env.title
            (run (initial env doc n0) events).env.modified
            (run (initial env doc n0) events).env.status ∧
      displayed_dots (run (initial env doc n0) events).label
        = dots_rule (RecentEditorSet (run (initial env doc n0) events).label)
            (run (initial env doc n0) events).env.hue ∧
      ((run (initial env doc n0) events).label.m_dots_visible = false ↔
        RecentEditorSet (run (initial env doc n0) events).label = []) := by
  have hI := run_inv _ events (initial_inv env doc n0)
  obtain ⟨h1, h2, h3, h4⟩ := hI.facets
  refine ⟨h1, h2, h3, h4, ?_⟩
  unfold displayed_dots dots_rule at h4
  by_cases hv : (run (initial env doc n0) events).label.m_dots_visible = true
  · by_cases hr : RecentEditorSet (run (initial env doc n0) events).label = []
    · simp [hv, hr] at h4
    · simp [hv, hr]
  · by_cases hr : RecentEditorSet (run (initial env doc n0) events).label = []
    · simp [hv, hr]
    · simp [hv, hr] at h4

/-! ## Ownership and release of subscriptions -/

theorem hue_subscriptions_of_wired (s : State) (hw : Wired s.sig s.label) :
    hue_subscriptions s.sig = (connected_watchers s.label).map UserWatcher.handler := by
  unfold hue_subscriptions
  rw [hw.handlers_eq, List.filter_append]
  have h1 : (primary_handlers s.label).filter
      (fun h => h.detailed_signal = SignalName.notify_hue) = [] := by
    simp [primary_handlers, List.filter_cons]
  have h2 : ((connected_watchers s.label).map UserWatcher.handler).filter
      (fun h => h.detailed_signal = SignalName.notify_hue)
      = (connected_watchers s.label).map UserWatcher.handler := by
    rw [List.filter_eq_self]
    intro h hh
    rw [List.mem_map] at hh
    obtain ⟨w, _, rfl⟩ := hh
    simp [UserWatcher.handler]
  rw [h1, h2, List.nil_append]

theorem subscriptions_on_user (s : State) (u : Ptr) (hw : Wired s.sig s.label) :
    subscriptions_on s.sig (GObj.user u) SignalName.notify_hue
      = ((connected_watchers s.label).filter (fun w => w.user = u)).map
          UserWatcher.handler := by
  unfold subscriptions_on
  rw [hw.handlers_eq, List.filter_append, filter_hue_handlers_user]
  have hp : (primary_handlers s.label).filter
      (fun h => h.inst = GObj.user u && h.detailed_signal = SignalName.notify_hue) = [] := by
    simp [primary_handlers, List.filter_cons]
  rw [hp, List.nil_append]

theorem count_users (ws : List UserWatcher) (u : Ptr) :
    (ws.map UserWatcher.get_user).count u = (ws.filter (fun w => w.user = u)).length := by
  induction ws with
  | nil => rfl
  | cons w ws ih =>
    by_cases h : w.user = u
    · simp [List.filter_cons, UserWatcher.get_user, h] at ih ⊢
      exact ih
    · simp [List.filter_cons, UserWatcher.get_user, h, List.count_cons] at ih ⊢
      exact ih

theorem connected_users_length (l : TabLabel) :
    (connected_watchers l).length
      = ((RecentEditorSet l).filter (fun u => u ≠ NULL)).length := by
  unfold connected_watchers RecentEditorSet
  induction l.m_changed_by with
  | nil => rfl
  | cons w ws ih =>
    by_cases h : w.user = NULL
    · simp [List.filter_cons, UserWatcher.get_user, h] at ih ⊢
      exact ih
    · simp [List.filter_cons, UserWatcher.get_user, h] at ih ⊢
      exact ih

theorem owns_hue_subscriptions_of_inv (s : State) (hI : Inv s) : owns_hue_subscriptions s := by
  have hw := hI.wired
  refine ⟨hue_subscriptions_of_wired s hw, hw.users_nodup, ?_, ?_, ?_⟩
  · intro u hn hu
    rw [subscriptions_on_user s u hw, List.length_map]
    unfold connected_watchers
    rw [filter_connected_user _ u hn]
    have hnd := hw.users_nodup
    have hc : (RecentEditorSet s.label).count u = 1 := List.count_eq_one_of_mem hnd hu
    rw [← hc]
    exact (count_users _ u).symm
  · intro u hu
    rw [subscriptions_on_user s u hw]
    have : (connected_watchers s.label).filter (fun w => w.user = u) = [] := by
      rw [List.filter_eq_nil_iff]
      intro w hw1
      unfold connected_watchers at hw1
      have hw2 := (List.mem_filter.mp hw1).1
      simp only [RecentEditorSet, List.mem_map, UserWatcher.get_user, not_exists, not_and] at hu
      simpa using hu w hw2
    rw [this]
    rfl
  · rw [hue_subscriptions_of_wired s hw]
    exact hw.handlers_eq

theorem destroy_disconnect_calls (s : State) :
    (TabLabel.destroy s).disconnect_calls
      = s.sig.disconnect_calls
        ++ (primary_disconnect_calls s.label
          ++ (connected_watchers s.label).map (fun w => (GObj.user w.user, w.handle))) := by
  simp [TabLabel.destroy, foldl_destroy, g_signal_handler_disconnect, GObj.is_null,
    primary_disconnect_calls, connected_watchers]

theorem teardown_calls_eq (s : State) :
    teardown_calls s
      = primary_disconnect_calls s.label
        ++ (connected_watchers s.label).map (fun w => (GObj.user w.user, w.handle)) := by
  unfold teardown_calls
  rw [destroy_disconnect_calls, List.drop_left]

theorem destroy_handlers (s : State) (hw : Wired s.sig s.label) :
    (TabLabel.destroy s).handlers = [] := by
  simp only [TabLabel.destroy, foldl_destroy, g_signal_handler_disconnect, GObj.is_null,
    Bool.false_eq_true, if_false, List.filter_filter]
  rw [List.filter_eq_nil_iff]
  intro h hh
  rw [hw.handlers_eq, List.mem_append] at hh
  rcases hh with hh | hh
  · simp only [primary_handlers, List.mem_cons, List.mem_singleton, List.not_mem_nil,
      or_false] at hh
    rcases hh with rfl | rfl | rfl | rfl | rfl | rfl <;> simp
  · rw [List.mem_map] at hh
    obtain ⟨w, hw1, rfl⟩ := hh
    unfold connected_watchers at hw1
    rw [List.mem_filter] at hw1
    have hn : ¬ w.user = NULL := by simpa using hw1.2
    simp only [Bool.and_eq_true, Bool.not_eq_true', List.any_eq_false, decide_eq_true_eq,
      Bool.not_eq_eq_eq_not, Bool.not_true, ne_eq, not_and, Bool.and_eq_false_imp,
      decide_eq_false_iff_not, Bool.decide_eq_true, decide_not, Bool.not_eq_true,
      Bool.not_eq_false_eq_eq_true]
    intro H
    exact absurd rfl (H w hw1.1 hn rfl)

theorem released_on_teardown_of_inv (s : State) (hI : Inv s) : released_on_teardown s := by
  have hw := hI.wired
  have hkeys : (s.sig.handlers.map Handler.key).Nodup := by
    have h := hw.id_nodup
    have e : s.sig.handlers.map Handler.id
        = (s.sig.handlers.map Handler.key).map Prod.snd := by
      rw [List.map_map]
      rfl
    rw [e] at h
    exact List.Nodup.of_map _ h
  have hperm : (teardown_calls s).Perm (s.sig.handlers.map Handler.key) := by
    rw [teardown_calls_eq, hw.handlers_eq, List.map_append, List.map_map]
    apply List.Perm.append
    · simp only [primary_disconnect_calls, primary_handlers, List.map_cons, List.map_nil,
        Handler.key]
      exact ((((List.Perm.swap _ _ []).cons _).cons _).cons _).cons _
    · exact List.Perm.of_eq rfl
  refine ⟨teardown_calls_eq s, ?_, hperm, ?_, destroy_handlers s hw⟩
  · exact hperm.nodup_iff.mpr hkeys
  · rw [teardown_calls_eq, List.length_append, List.length_map, connected_users_length]
    rfl

/-- Claim C8 as stated fails: after a remote edit with a null author on an inactive tab the
null handle is a recent editor that owns no connected hue subscription, because nothing
can be connected on a null instance. -/
theorem null_member_owns_subscription_refuted :
    ¬ ∀ (env : Env) (doc : Ptr) (n0 : Nat) (events : List Event) (u : Ptr),
        u ∈ RecentEditorSet (run (initial env doc n0) events).label →
          (subscriptions_on (run (initial env doc n0) events).sig (GObj.user u)
            SignalName.notify_hue).length = 1 := by
  intro h
  have h2 := h (example_env InfSessionStatus.INF_SESSION_RUNNING) 1 1
    [Event.text_inserted NULL] NULL (by decide)
  revert h2
  decide

/-- Claim C8, amended: in every state reachable from construction each recent editor that
is not null owns exactly one connected hue subscription and the label has no other hue
subscription connected, and tearing the label down disconnects exactly these hue
subscriptions and the six primary subscriptions, each once, leaving no handler
connected. -/
theorem subscriptions_owned_and_released (env : Env) (doc : Ptr) (n0 : Nat)
    (events : List Event) :
    owns_hue_subscriptions (run (initial env doc n0) events) ∧
      released_on_teardown (run (initial env doc n0) events) := by
  have hI := run_inv _ events (initial_inv env doc n0)
  exact ⟨owns_hue_subscriptions_of_inv _ hI, released_on_teardown_of_inv _ hI⟩

/-! ## Remote edits on an inactive and on an active tab -/

theorem on_changed_m_changed (s : State) (a : Ptr) :
    (on_changed s a).label.m_changed
      = if s.env.current_document ≠ s.label.m_document then
          (s.label.m_changed || decide (s.env.status = InfSessionStatus.INF_SESSION_RUNNING))
        else s.label.m_changed := by
  unfold on_changed
  split
  · split <;> dsimp only <;> split <;> (try split) <;>
      simp_all [update_color_eq, update_dots_eq, push_back_watcher_label, push_back_watcher_env]
  · rfl

theorem on_changed_sig (s : State) (a : Ptr) :
    (on_changed s a).sig
      = if s.env.current_document ≠ s.label.m_document ∧ a ∉ RecentEditorSet s.label then
          (push_back_watcher s a).sig
        else s.sig := by
  unfold on_changed RecentEditorSet
  by_cases hact : s.env.current_document = s.label.m_document
  · simp [hact]
  · by_cases hmem : a ∈ s.label.m_changed_by.map UserWatcher.get_user
    · have hf := (find_eq_user_none s.label.m_changed_by a).not.mpr (not_not.mpr hmem)
      simp only [ne_eq, hact, not_false_eq_true, hf, if_true, if_false, true_and, hmem,
        not_true_eq_false]
      split
      · split <;> rfl
      · rfl
    · have hf := (find_eq_user_none s.label.m_changed_by a).mpr hmem
      simp only [ne_eq, hact, not_false_eq_true, hf, if_true, true_and, hmem]
      split
      · split <;> rfl
      · rfl

theorem on_changed_m_title_fg (s : State) (a : Ptr) :
    (on_changed s a).label.m_title_fg
      = if s.env.current_document ≠ s.label.m_document ∧ s.label.m_changed = false ∧
            s.env.status = InfSessionStatus.INF_SESSION_RUNNING then
          ColorClass.Alert.fg
        else s.label.m_title_fg := by
  unfold on_changed
  split
  · split <;> dsimp only <;> split <;> (try split) <;>
      simp_all [update_color_eq, update_dots_eq, push_back_watcher_label, push_back_watcher_env,
        color_rule]
  · simp_all

/-- Claim C4 as stated fails: on an inactive tab whose session is still synchronizing, a
remote edit adds the author but leaves `m_changed` false. -/
theorem on_changed_sets_changed_refuted :
    ¬ ∀ (s : State) (author : Ptr), s.env.current_document ≠ s.label.m_document →
        author ∈ RecentEditorSet (on_changed s author).label ∧
          (on_changed s author).label.m_changed = true := by
  intro h
  have h2 := (h (example_inactive InfSessionStatus.INF_SESSION_SYNCHRONIZING) 7
    (by decide)).2
  rw [on_changed_m_changed] at h2
  revert h2
  decide

/-- Claim C4, amended: after a remote edit is handled on an inactive tab the author is a
member of RecentEditorSet, and `m_changed` is true exactly when it was already true or the
session status is Running. -/
theorem on_changed_inactive (s : State) (author : Ptr)
    (h : s.env.current_document ≠ s.label.m_document) :
    author ∈ RecentEditorSet (on_changed s author).label ∧
      ((on_changed s author).label.m_changed = true ↔
        (s.label.m_changed = true ∨
          s.env.status = InfSessionStatus.INF_SESSION_RUNNING)) := by
  constructor
  · rw [on_changed_editors]
    by_cases hm : author ∈ RecentEditorSet s.label
    · simp [hm]
    · simp [h, hm]
  · rw [on_changed_m_changed]
    simp [h]

/-- An instance of the amended C4 statement: an inactive tab of a running session,
author 7. -/
theorem on_changed_inactive_witness :
    (example_inactive InfSessionStatus.INF_SESSION_RUNNING).env.current_document
        ≠ (example_inactive InfSessionStatus.INF_SESSION_RUNNING).label.m_document ∧
      (7 ∈ RecentEditorSet
          (on_changed (example_inactive InfSessionStatus.INF_SESSION_RUNNING) 7).label ∧
        ((on_changed (example_inactive InfSessionStatus.INF_SESSION_RUNNING) 7).label.m_changed
            = true ↔
          ((example_inactive InfSessionStatus.INF_SESSION_RUNNING).label.m_changed = true ∨
            (example_inactive InfSessionStatus.INF_SESSION_RUNNING).env.status
              = InfSessionStatus.INF_SESSION_RUNNING))) :=
  ⟨by decide, on_changed_inactive _ 7 (by decide)⟩

/-- Claim C5 as stated fails: on an inactive tab with no recent editor, a remote edit with
a null author makes the null handle a member. -/
theorem null_author_ignored_refuted :
    ¬ ∀ (s : State), s.env.current_document ≠ s.label.m_document →
        RecentEditorSet (on_changed s NULL).label = RecentEditorSet s.label := by
  intro h
  have h2 := h (example_inactive InfSessionStatus.INF_SESSION_RUNNING) (by decide)
  rw [on_changed_editors] at h2
  revert h2
  decide

/-- Claim C5, amended: a null author is handled like any other author for membership.  On
an inactive tab `on_changed` leaves RecentEditorSet unchanged when the null handle is
already a member, and otherwise appends the null handle as the last member; either way the
null handle is a member afterwards. -/
theorem on_changed_null_author (s : State)
    (h : s.env.current_document ≠ s.label.m_document) :
    RecentEditorSet (on_changed s NULL).label
        = (if NULL ∈ RecentEditorSet s.label then RecentEditorSet s.label
           else RecentEditorSet s.label ++ [NULL]) ∧
      NULL ∈ RecentEditorSet (on_changed s NULL).label := by
  have e : RecentEditorSet (on_changed s NULL).label
      = (if NULL ∈ RecentEditorSet s.label then RecentEditorSet s.label
         else RecentEditorSet s.label ++ [NULL]) := by
    rw [on_changed_editors]
    by_cases hm : NULL ∈ RecentEditorSet s.label
    · simp [hm]
    · simp [h, hm]
  refine ⟨e, ?_⟩
  rw [e]
  by_cases hm : NULL ∈ RecentEditorSet s.label
  · simp [hm]
  · simp [hm]

/-- An instance of the amended C5 statement: an inactive tab right after construction,
where the null author becomes the only member. -/
theorem on_changed_null_author_witness :
    (example_inactive InfSessionStatus.INF_SESSION_RUNNING).env.current_document
        ≠ (example_inactive InfSessionStatus.INF_SESSION_RUNNING).label.m_document ∧
      RecentEditorSet (on_changed (example_inactive InfSessionStatus.INF_SESSION_RUNNING)
          NULL).label = [NULL] :=
  ⟨by decide,
   (on_changed_null_author (example_inactive InfSessionStatus.INF_SESSION_RUNNING)
      (by decide)).1.trans (by decide)⟩

/-- Claim C10: while the folder shows the document of the tab, `on_changed` changes
nothing, for every author: RecentEditorSet, `m_changed`, icon, colour, title and dots are
all as before (the whole state is), also when the edit arrives as a signal. -/
theorem on_changed_active (s : State) (author : Ptr)
    (h : s.env.current_document = s.label.m_document) :
    on_changed s author = s ∧
      RecentEditorSet (on_changed s author).label = RecentEditorSet s.label ∧
      (on_changed s author).label.m_changed = s.label.m_changed ∧
      (on_changed s author).label.m_icon = s.label.m_icon ∧
      (on_changed s author).label.m_title_fg = s.label.m_title_fg ∧
      (on_changed s author).label.m_title_text = s.label.m_title_text ∧
      displayed_dots (on_changed s author).label = displayed_dots s.label ∧
      (Wired s.sig s.label →
        step s (Event.text_inserted author) = s ∧ step s (Event.text_erased author) = s) := by
  have e : on_changed s author = s := by
    unfold on_changed
    simp [h]
  refine ⟨e, ?_, ?_, ?_, ?_, ?_, ?_, ?_⟩
  · rw [e]
  · rw [e]
  · rw [e]
  · rw [e]
  · rw [e]
  · rw [e]
  · intro hw
    simp only [step]
    rw [emit_insert_text _ _ hw, emit_erase_text _ _ hw, e]
    exact ⟨rfl, rfl⟩

/-- An instance of the C10 statement: an active tab right after construction, author 7. -/
theorem on_changed_active_witness :
    example_active.env.current_document = example_active.label.m_document ∧
      RecentEditorSet (on_changed example_active 7).label = RecentEditorSet example_active.label ∧
      (on_changed example_active 7).label.m_changed = example_active.label.m_changed :=
  ⟨by decide,
   (on_changed_active example_active 7 (by decide)).2.1,
   (on_changed_active example_active 7 (by decide)).2.2.1⟩

/-! ## Activation -/

theorem on_folder_document_changed_label (s : State) :
    (on_folder_document_changed s s.label.m_document).label
      = { s.label with
          m_changed_by := [], m_dots_visible := false, m_changed := false,
          m_title_fg := (color_rule false (subscribed s.env) s.env.status).fg } := by
  simp [on_folder_document_changed, clear_changed_by, update_color_eq, update_dots_eq]

theorem color_rule_false_ne_alert (sub : Bool) (st : InfSessionStatus) :
    (color_rule false sub st).fg ≠ ColorClass.Alert.fg := by
  cases sub <;> cases st <;> decide

theorem initial_label_m_document (env : Env) (doc : Ptr) (n0 : Nat) :
    (initial env doc n0).label.m_document = doc := by
  simp [initial, TabLabel.construct, update_icon_eq, update_color_eq, update_modified_eq]

theorem initial_label_m_changed (env : Env) (doc : Ptr) (n0 : Nat) :
    (initial env doc n0).label.m_changed = false := by
  simp [initial, TabLabel.construct, update_icon_eq, update_color_eq, update_modified_eq]

theorem initial_editors (env : Env) (doc : Ptr) (n0 : Nat) :
    RecentEditorSet (initial env doc n0).label = [] := by
  simp [initial, TabLabel.construct, update_icon_eq, update_color_eq, update_modified_eq,
    RecentEditorSet]

theorem initial_env (env : Env) (doc : Ptr) (n0 : Nat) : (initial env doc n0).env = env := rfl

theorem run_m_document (s : State) (events : List Event) (hI : Inv s) :
    (run s events).label.m_document = s.label.m_document := by
  induction events generalizing s with
  | nil => rfl
  | cons e es ih =>
    have hw := hI.wired
    show (run (step s e) es).label.m_document = _
    rw [ih (step s e) (step_inv s e hI)]
    cases e with
    | status_changed st =>
      simp only [step]
      rw [emit_notify_status { s with env := { s.env with status := st } } _ hw]
      simp [on_notify_status, update_icon_eq, update_color_eq, update_modified_eq]
    | subscription_group_changed g =>
      simp only [step]
      rw [emit_notify_subscription_group
        { s with env := { s.env with subscription_group := g } } _ hw]
      simp [on_notify_subscription_group, update_icon_eq, update_color_eq]
    | editable_changed b =>
      simp only [step]
      rw [emit_notify_editable { s with env := { s.env with editable := b } } _ hw]
      simp [on_notify_editable, update_icon_eq]
    | modified_changed b =>
      simp only [step]
      rw [emit_modified_changed { s with env := { s.env with modified := b } } _ hw]
      simp [on_modified_changed, update_modified_eq]
    | text_inserted a =>
      simp only [step]
      rw [emit_insert_text _ _ hw, on_changed_m_document]
    | text_erased a =>
      simp only [step]
      rw [emit_erase_text _ _ hw, on_changed_m_document]
    | folder_document_changed d =>
      simp only [step, hw.slot, if_true]
      rw [on_folder_document_changed_m_document]
    | hue_changed u h =>
      simp only [step]
      by_cases hn : u = NULL
      · simp only [hn, if_true]
      · simp only [hn, if_false]
        rw [emit_notify_hue
          { s with env := { s.env with hue := fun v => if v = u then h else s.env.hue v } }
          _ _ hw hn]
        split <;> simp [update_dots_eq]

/-- Claim C9: handling `on_folder_document_changed` with the document of the tab empties
RecentEditorSet, clears `m_changed` and recomputes the colour, which is then the colour of
the rule for an unchanged tab and so never Alert, whatever the state before; the same
holds when the activation arrives as an event in any reachable state.  In the scenario
(inactive, Running, subscribed, not editable) the icon is ReadOnly, a remote edit by `a`
gives the set `[a]`, `m_changed` true and Alert, and the activation that follows gives the
empty set, `m_changed` false and Default. -/
theorem activation_clears (s : State) (env : Env) (doc : Ptr) (n0 : Nat) (a g : Ptr)
    (events : List Event) :
    (RecentEditorSet (on_folder_document_changed s s.label.m_document).label = [] ∧
      (on_folder_document_changed s s.label.m_document).label.m_changed = false ∧
      (on_folder_document_changed s s.label.m_document).label.m_title_fg
        = (color_rule false (subscribed s.env) s.env.status).fg ∧
      (on_folder_document_changed s s.label.m_document).label.m_title_fg
        ≠ ColorClass.Alert.fg ∧
      displayed_dots (on_folder_document_changed s s.label.m_document).label = none) ∧
    (RecentEditorSet
        (step (run (initial env doc n0) events) (Event.folder_document_changed doc)).label
        = [] ∧
      (step (run (initial env doc n0) events) (Event.folder_document_changed doc)).label.m_changed
        = false ∧
      (step (run (initial env doc n0) events) (Event.folder_document_changed doc)).label.m_title_fg
        ≠ ColorClass.Alert.fg) ∧
    ((initial (scenario_env env g doc) doc n0).label.m_icon = some IconKind.ReadOnly.stock ∧
      RecentEditorSet (scenario_edited env g doc n0 a).label = [a] ∧
      (scenario_edited env g doc n0 a).label.m_changed = true ∧
      (scenario_edited env g doc n0 a).label.m_title_fg = ColorClass.Alert.fg ∧
      RecentEditorSet (scenario_activated env g doc n0 a).label = [] ∧
      (scenario_activated env g doc n0 a).label.m_changed = false ∧
      (scenario_activated env g doc n0 a).label.m_title_fg = ColorClass.Default.fg) := by
  have key : ∀ t : State,
      RecentEditorSet (on_folder_document_changed t t.label.m_document).label = [] ∧
      (on_folder_document_changed t t.label.m_document).label.m_changed = false ∧
      (on_folder_document_changed t t.label.m_document).label.m_title_fg
        = (color_rule false (subscribed t.env) t.env.status).fg ∧
      (on_folder_document_changed t t.label.m_document).label.m_title_fg
        ≠ ColorClass.Alert.fg ∧
      displayed_dots (on_folder_document_changed t t.label.m_document).label = none := by
    intro t
    rw [on_folder_document_changed_label]
    refine ⟨rfl, rfl, rfl, color_rule_false_ne_alert _ _, rfl⟩
  have hev : ∀ t : State, Inv t →
      step t (Event.folder_document_changed t.label.m_document)
        = on_folder_document_changed
            { t with env := { t.env with current_document := t.label.m_document } }
            t.label.m_document := by
    intro t hI
    simp only [step, hI.wired.slot, if_true]
  refine ⟨key s, ?_, ?_⟩
  · have hI := run_inv _ events (initial_inv env doc n0)
    have hd : (run (initial env doc n0) events).label.m_document = doc := by
      rw [run_m_document _ _ (initial_inv env doc n0), initial_label_m_document]
    have h := hev _ hI
    rw [hd] at h
    rw [h]
    have k := key { run (initial env doc n0) events with
      env := { (run (initial env doc n0) events).env with current_document := doc } }
    simp only [hd] at k
    exact ⟨k.1, k.2.1, k.2.2.2.1⟩
  · have hI0 := initial_inv (scenario_env env g doc) doc n0
    have e1 : scenario_edited env g doc n0 a
        = on_changed (initial (scenario_env env g doc) doc n0) a := by
      unfold scenario_edited
      simp only [step]
      rw [emit_insert_text _ _ hI0.wired]
    have hI1 : Inv (scenario_edited env g doc n0 a) := step_inv _ _ hI0
    have hd1 : (scenario_edited env g doc n0 a).label.m_document = doc := by
      rw [e1, on_changed_m_document, initial_label_m_document]
    have henv1 : (scenario_edited env g doc n0 a).env = scenario_env env g doc := by
      rw [e1, on_changed_env, initial_env]
    have e2 : scenario_activated env g doc n0 a
        = on_folder_document_changed
            { scenario_edited env g doc n0 a with
              env := { (scenario_edited env g doc n0 a).env with current_document := doc } }
            doc := by
      have h := hev _ hI1
      rw [hd1] at h
      exact h
    have k := key { scenario_edited env g doc n0 a with
      env := { (scenario_edited env g doc n0 a).env with current_document := doc } }
    simp only [hd1] at k
    rw [← e2] at k
    refine ⟨?_, ?_, ?_, ?_, k.1, k.2.1, ?_⟩
    · rw [hI0.facets.1]
      simp [initial_env, scenario_env, subscribed, icon_rule, NULL]
    · rw [e1, on_changed_editors, initial_editors, initial_label_m_document, initial_env]
      simp [scenario_env]
    · rw [e1, on_changed_m_changed, initial_label_m_document, initial_env]
      simp [scenario_env]
    · rw [e1, on_changed_m_title_fg, initial_label_m_document, initial_env,
        initial_label_m_changed]
      simp [scenario_env]
    · rw [k.2.2.1]
      simp [henv1, scenario_env, subscribed, color_rule, NULL]

/-- Teardown with three tracked authors: nine disconnect calls, the six primary ones and
one per author, and nothing stays connected. -/
theorem teardown_three_authors :
    RecentEditorSet example_three_authors.label = [7, 8, 9] ∧
      teardown_calls example_three_authors
        = [(GObj.text_view, 1), (GObj.session, 2), (GObj.session, 3), (GObj.text_buffer, 4),
           (GObj.buffer, 6), (GObj.buffer, 5),
           (GObj.user 7, 8), (GObj.user 8, 10), (GObj.user 9, 12)] ∧
      (TabLabel.destroy example_three_authors).handlers = [] := by
  decide

/-- Teardown after a remote edit with a null author: the null handle is the one recent
editor, no hue handler is connected for it, and the destructor disconnects the six primary
handlers only. -/
theorem teardown_null_author :
    RecentEditorSet example_null_author.label = [NULL] ∧
      hue_subscriptions example_null_author.sig = [] ∧
      teardown_calls example_null_author
        = [(GObj.text_view, 1), (GObj.session, 2), (GObj.session, 3), (GObj.text_buffer, 4),
           (GObj.buffer, 6), (GObj.buffer, 5)] ∧
      (TabLabel.destroy example_null_author).handlers = [] := by
  decide

end Gobby
